import Mathlib

/-!
Verification of the hyperdashi-server persistence and label-allocation layer.

The Lean definitions below are a shallow embedding of the Rust source under
src/: each definition's doc comment names the Rust function or code region it
embeds.  Database tables are modelled as lists of rows (or keyed partial maps
for tables addressed only by primary key); the two SQL dialect branches of
each service method are modelled as separate Lean functions.  64-bit /
32-bit machine arithmetic is modelled on Nat / Int with explicit reductions
modulo 2^32 where the Rust code performs an `as u32` cast or 32-bit
multiplication whose overflow is observable.
-/

namespace HyperDashi

/-- Embeds `AppError` (src/error.rs); only the variants reachable from the
service-layer code paths under study are included, each carrying its
message string exactly as the Rust code formats it. -/
inductive AppError where
  | NotFound (msg : String)
  | BadRequest (msg : String)
  | InternalServerError (msg : String)
deriving DecidableEq, Repr

/-! ## Base-36 label rendering

Embeds the rendering expression
`format!("{:0>4}", radix_fmt::radix_36(n as u32).to_string().to_uppercase())`
used by `ItemService::generate_label_ids` and `ItemService::get_all_labels`
(src/services/item_service.rs).  `radix_fmt::radix_36` renders the number in
base 36 with lowercase letter digits and no leading zeros (0 renders as "0");
`.to_uppercase()` upcases the letter digits, so the composition renders with
digits 0-9,A-Z; the format spec left-pads with '0' to a minimum width of 4. -/

/-- The uppercase base-36 digit character for a digit value `d < 36`
(composition of radix_fmt's digit choice with `.to_uppercase()`). -/
def digitChar36 (d : Nat) : Char :=
  if d < 10 then Char.ofNat (48 + d) else Char.ofNat (55 + d)

/-- Fuel-driven digit loop of the base-36 renderer: repeatedly divides by 36,
accumulating digits most-significant-first.  The fuel argument only makes the
recursion structural; `toRadix36` supplies fuel `n`, which is always enough. -/
def toRadix36Go : Nat → Nat → List Char → List Char
  | 0, _, acc => acc
  | fuel + 1, n, acc =>
      if n = 0 then acc else toRadix36Go fuel (n / 36) (digitChar36 (n % 36) :: acc)

/-- Base-36 rendering without padding: `radix_fmt::radix_36(n).to_string().to_uppercase()`.
Renders 0 as "0" and otherwise with no leading zeros. -/
def toRadix36 (n : Nat) : List Char :=
  if n = 0 then ['0'] else toRadix36Go n n []

/-- `format!("{:0>4}", s)`: left-pad with '0' to a minimum width of 4. -/
def padLeft4 (s : List Char) : List Char :=
  List.replicate (4 - s.length) '0' ++ s

/-- The complete label rendering used for label ids. -/
def labelRender (n : Nat) : String :=
  ⟨padLeft4 (toRadix36 n)⟩

/-- Specification-side digit list (most-significant first, no leading zeros),
used only in proofs about `toRadix36`. -/
def natDigits36 (n : Nat) : List Nat :=
  if h : n = 0 then [] else natDigits36 (n / 36) ++ [n % 36]
decreasing_by exact Nat.div_lt_self (Nat.pos_of_ne_zero h) (by norm_num)

/-- Fixed-width digit list (`k` digits, most-significant first), used only in
proofs: the value `n < 36^k` written with exactly `k` base-36 digits. -/
def fixedDigits36 : Nat → Nat → List Nat
  | 0, _ => []
  | k + 1, n => n / 36 ^ k :: fixedDigits36 k (n % 36 ^ k)

/-! ## Label allocation (ItemService::generate_label_ids)

Embeds `ItemService::generate_label_ids` (src/services/item_service.rs,
lines 816-889).  The Postgres and SQLite branches are written out identically
in the source (they differ only in the SQL placeholder style), so one Lean
function models both.  The label counter row is the function's state; the
whole body runs in one transaction, so the error return before the UPDATE
leaves the counter unchanged (the transaction is dropped and rolled back).

`current_value` is an `i64` column.  The arithmetic `current_value +
quantity as i64` is modelled exactly on `Int`: for any value the counter can
actually hold (it starts at 0 and the guarded update keeps it at most
1679615) the `i64` addition cannot overflow, since `quantity` is a `u32`.
The cast `new_number as u32` in the rendering is modelled as reduction
modulo 2^32. -/

/-- State of the singleton `label_counter` row. -/
structure CounterState where
  current_value : Int
deriving DecidableEq, Repr

/-- Maximum representable 4-character base-36 value, `36^4 - 1`. -/
def maxLabelValue : Int := 1679615

/-- Embeds `ItemService::generate_label_ids` (both dialect branches).
Returns the result together with the counter state after the call. -/
def generate_label_ids (st : CounterState) (quantity : Nat) :
    Except AppError (List String) × CounterState :=
  if st.current_value + (quantity : Int) > maxLabelValue then
    (Except.error (AppError.BadRequest "Not enough label IDs available"), st)
  else
    let label_ids := (List.range quantity).map
      (fun i => labelRender ((st.current_value + ((i : Int) + 1)) % (2 ^ 32)).toNat)
    (Except.ok label_ids, ⟨st.current_value + (quantity : Int)⟩)

/-! ## Container list sorting (ContainerService::list_containers)

Embeds the sort-key resolution of `ContainerService::list_containers`
(src/services/container_service.rs, lines 202-212 for the Postgres branch,
lines 279-289 for the SQLite branch).  Both branches contain the identical
`match sort_by` allow-list and the identical
`sort_order.eq_ignore_ascii_case("asc")` direction test; they are embedded
as separate definitions, one per branch. -/

/-- ASCII lower-casing of one character (`u8::to_ascii_lowercase`, applied
characterwise; non-ASCII characters are unchanged). -/
def asciiLower (c : Char) : Char :=
  if 'A' ≤ c ∧ c ≤ 'Z' then Char.ofNat (c.toNat + 32) else c

/-- Embeds `str::eq_ignore_ascii_case`: equality after ASCII case folding. -/
def eqIgnoreAsciiCase (s t : String) : Bool :=
  s.data.map asciiLower == t.data.map asciiLower

/-- The `match sort_by` allow-list of the Postgres branch of
`ContainerService::list_containers`. -/
def pgContainerSortColumn (sort_by : String) : String :=
  if sort_by = "name" then "c.name"
  else if sort_by = "location" then "c.location"
  else if sort_by = "item_count" then "item_count"
  else if sort_by = "created_at" then "c.created_at"
  else if sort_by = "updated_at" then "c.updated_at"
  else if sort_by = "is_disposed" then "c.is_disposed"
  else "c.created_at"

/-- The `match sort_by` allow-list of the SQLite branch of
`ContainerService::list_containers`. -/
def sqliteContainerSortColumn (sort_by : String) : String :=
  if sort_by = "name" then "c.name"
  else if sort_by = "location" then "c.location"
  else if sort_by = "item_count" then "item_count"
  else if sort_by = "created_at" then "c.created_at"
  else if sort_by = "updated_at" then "c.updated_at"
  else if sort_by = "is_disposed" then "c.is_disposed"
  else "c.created_at"

/-- The sort-direction test of the Postgres branch:
`if sort_order.eq_ignore_ascii_case("asc") { "ASC" } else { "DESC" }`. -/
def pgContainerSortDirection (sort_order : String) : String :=
  if eqIgnoreAsciiCase sort_order "asc" then "ASC" else "DESC"

/-- The sort-direction test of the SQLite branch (identical source text). -/
def sqliteContainerSortDirection (sort_order : String) : String :=
  if eqIgnoreAsciiCase sort_order "asc" then "ASC" else "DESC"

/-! ## Container deletion (ContainerService::delete_container)

Embeds `ContainerService::delete_container`
(src/services/container_service.rs, lines 492-550).  The Postgres branch
counts blocking items with
`SELECT COUNT(*) FROM items WHERE container_id = $1 AND storage_type = 'container'`
(no disposal filter), while the SQLite branch additionally filters
`AND (is_disposed IS NULL OR is_disposed = 0)`.  SQLite stores the boolean
`is_disposed` column as 0/1; the logical value is modelled as `Option Bool`
with `some false` standing for a stored 0 and `none` for NULL.  The DELETE
statement removes the row with the given id; `rows_affected() == 0` is
equivalent to the id not being present. -/

/-- Row of the `items` table restricted to the columns consulted by
`delete_container`. -/
structure ContainedItemRow where
  container_id : Option String
  storage_type : Option String
  is_disposed : Option Bool
deriving DecidableEq, Repr

/-- The tables consulted by `delete_container`: item rows and the primary
keys of the `containers` table. -/
structure ContainerDbState where
  items : List ContainedItemRow
  containers : List String
deriving DecidableEq, Repr

/-- Embeds the Postgres branch of `ContainerService::delete_container`
(lines 494-520). -/
def delete_container_postgres (db : ContainerDbState) (id : String) :
    Except AppError ContainerDbState :=
  let count := (db.items.filter (fun it =>
    it.container_id == some id && it.storage_type == some "container")).length
  if count > 0 then
    Except.error (AppError.BadRequest "Cannot delete container that contains items")
  else if db.containers.contains id then
    Except.ok { db with containers := db.containers.filter (fun c => c != id) }
  else
    Except.error (AppError.NotFound "Container not found")

/-- Embeds the SQLite branch of `ContainerService::delete_container`
(lines 521-548); its count query excludes disposed items. -/
def delete_container_sqlite (db : ContainerDbState) (id : String) :
    Except AppError ContainerDbState :=
  let count := (db.items.filter (fun it =>
    it.container_id == some id && it.storage_type == some "container" &&
      (it.is_disposed == none || it.is_disposed == some false))).length
  if count > 0 then
    Except.error
      (AppError.BadRequest "Cannot delete container with items. Move or remove items first.")
  else if db.containers.contains id then
    Except.ok { db with containers := db.containers.filter (fun c => c != id) }
  else
    Except.error (AppError.NotFound "Container not found")

/-! ## Container partial update (ContainerService::update_container)

Embeds `ContainerService::update_container`
(src/services/container_service.rs, lines 350-490).  The Postgres branch
first builds the `updates` vector — which fixes the placeholder numbering —
in the order name, description, location, image_url, is_disposed,
updated_at, and then issues `query_builder.bind(..)` calls in the order
name, description, location, **is_disposed**, **image_url**, now, id.
Since the n-th bind call supplies the value of placeholder `$n`, the
effective SET assignment executed by the database pairs the k-th entry of
the `updates` vector with the k-th bound parameter.  The SQLite branch
pushes each parameter in the same order as its `updates` entry (and encodes
`is_disposed` as the text "1"/"0" and `updated_at` as an RFC 3339 string). -/

/-- A parameter value bound to a SQL placeholder. -/
inductive SqlValue where
  | s (v : String)
  | b (v : Bool)
  | i (v : Int)
  | time (v : Int)
deriving DecidableEq, Repr

/-- Embeds `UpdateContainerRequest` as consumed by
`ContainerService::update_container`. -/
structure UpdateContainerRequest where
  name : Option String
  description : Option String
  location : Option String
  image_url : Option String
  is_disposed : Option Bool
deriving DecidableEq, Repr

/-- Placeholder-order column list built by the `updates` vector of the
Postgres branch (lines 357-391). -/
def pgUpdateContainerColumns (r : UpdateContainerRequest) : List String :=
  (if r.name.isSome then ["name"] else []) ++
  (if r.description.isSome then ["description"] else []) ++
  (if r.location.isSome then ["location"] else []) ++
  (if r.image_url.isSome then ["image_url"] else []) ++
  (if r.is_disposed.isSome then ["is_disposed"] else []) ++
  ["updated_at"]

/-- Bind-order parameter list of the Postgres branch (lines 399-421): note
that `is_disposed` is bound before `image_url`, unlike the `updates` order. -/
def pgUpdateContainerBinds (r : UpdateContainerRequest) (now : Int) : List SqlValue :=
  (r.name.map SqlValue.s).toList ++
  (r.description.map SqlValue.s).toList ++
  (r.location.map SqlValue.s).toList ++
  (r.is_disposed.map SqlValue.b).toList ++
  (r.image_url.map SqlValue.s).toList ++
  [SqlValue.time now]

/-- The column-to-value assignment the Postgres UPDATE statement executes:
placeholder `$k` (the k-th `updates` entry) receives the k-th bound value. -/
def pgUpdateContainerAssignments (r : UpdateContainerRequest) (now : Int) :
    List (String × SqlValue) :=
  (pgUpdateContainerColumns r).zip (pgUpdateContainerBinds r now)

/-- `updates` column list of the SQLite branch (lines 432-469); same order
as the Postgres branch. -/
def sqliteUpdateContainerColumns (r : UpdateContainerRequest) : List String :=
  (if r.name.isSome then ["name"] else []) ++
  (if r.description.isSome then ["description"] else []) ++
  (if r.location.isSome then ["location"] else []) ++
  (if r.image_url.isSome then ["image_url"] else []) ++
  (if r.is_disposed.isSome then ["is_disposed"] else []) ++
  ["updated_at"]

/-- Parameter list of the SQLite branch, pushed in `updates` order
(lines 435-471), excluding the trailing id parameter consumed by the WHERE
clause.  `is_disposed` is stored as the text "1"/"0"; `updated_at` as an
RFC 3339 string `nowStr`. -/
def sqliteUpdateContainerParams (r : UpdateContainerRequest) (nowStr : String) :
    List String :=
  r.name.toList ++ r.description.toList ++ r.location.toList ++ r.image_url.toList ++
  (r.is_disposed.map (fun b => if b then "1" else "0")).toList ++
  [nowStr]

/-- The column-to-value assignment the SQLite UPDATE statement executes. -/
def sqliteUpdateContainerAssignments (r : UpdateContainerRequest) (nowStr : String) :
    List (String × String) :=
  (sqliteUpdateContainerColumns r).zip (sqliteUpdateContainerParams r nowStr)

/-! ## Label overview (ItemService::get_all_labels)

Embeds `ItemService::get_all_labels` (src/services/item_service.rs, lines
891-952; the two dialect branches are written out identically).  The used
labels are loaded with `SELECT label_id, name FROM items WHERE
LENGTH(label_id) = 4` into a HashMap (later rows overwrite earlier ones on
duplicate keys), then every i in 0..=1679615 is rendered and looked up.
Containers are never queried, so labels held only by containers are
reported unused. -/

/-- Embeds `handlers::labels::LabelInfo`. -/
structure LabelInfo where
  id : String
  used : Bool
  item_name : Option String
deriving DecidableEq, Repr

/-- The `label_id` and `name` columns of one `items` row, as selected by
the used-labels query of `get_all_labels`. -/
structure ItemLabelRow where
  label_id : String
  name : String
deriving DecidableEq, Repr

/-- The `used_labels_map` HashMap of `get_all_labels`, as a lookup
function: rows (pre-filtered by `LENGTH(label_id) = 4`) are inserted in
order, later inserts overwriting earlier ones. -/
def usedLabelsMap (rows : List ItemLabelRow) : String → Option String :=
  (rows.filter (fun r => r.label_id.length == 4)).foldl
    (fun m r => fun k => if k == r.label_id then some r.name else m k)
    (fun _ => none)

/-- Embeds `ItemService::get_all_labels` (both dialect branches). -/
def get_all_labels (rows : List ItemLabelRow) : List LabelInfo :=
  let m := usedLabelsMap rows
  (List.range 1679616).map (fun i =>
    { id := labelRender i
      used := (m (labelRender i)).isSome
      item_name := m (labelRender i) })

/-! ## Dynamic query construction of ItemService::list_items

Embeds the SQL-string and bind-list construction of
`ItemService::list_items` (src/services/item_service.rs, lines 192-463).
Whitespace inside the Rust raw-string literals (newlines and indentation)
is normalized to single spaces; everything else, including the placeholder
numbering, is kept verbatim.  The Postgres branch numbers placeholders
`$1..`; the SQLite branch uses positional `?` and special-cases the
no-filter combination with static SQL.  `page` and `per_page` are `u32`;
`offset` is computed as `((page - 1) * per_page) as i64`, a 32-bit
multiplication that wraps modulo 2^32 under the release profile (the debug
profile panics on the same overflow; in neither case is the mathematical
product used once it reaches 2^32). -/

/-- The filter arguments of `list_items`. -/
structure ItemListFilters where
  search : Option String
  is_on_loan : Option Bool
  is_disposed : Option Bool
  container_id : Option String
  storage_type : Option String
deriving DecidableEq, Repr

/-- The column list shared by the row queries (whitespace normalized). -/
def itemSelectColumns : String :=
  "SELECT id, name, label_id, model_number, remarks, purchase_year, purchase_amount, durability_years, is_depreciation_target, connection_names, cable_color_pattern, storage_location, container_id, storage_type, is_on_loan, qr_code_type, is_disposed, image_url, created_at, updated_at FROM items"

/-- `where_conditions` vector and final `param_index` of the Postgres
branch (lines 208-239). -/
def pgItemWhereConditions (f : ItemListFilters) : List String × Nat :=
  let conds : List String := []
  let i := 1
  let (conds, i) := if f.search.isSome then
      (conds ++ ["(name ILIKE $" ++ toString i ++ " OR label_id ILIKE $" ++ toString (i + 1)
        ++ " OR model_number ILIKE $" ++ toString (i + 2) ++ " OR remarks ILIKE $"
        ++ toString (i + 3) ++ ")"], i + 4)
    else (conds, i)
  let (conds, i) := if f.is_on_loan.isSome then
      (conds ++ ["is_on_loan = $" ++ toString i], i + 1) else (conds, i)
  let (conds, i) := if f.is_disposed.isSome then
      (conds ++ ["is_disposed = $" ++ toString i], i + 1) else (conds, i)
  let (conds, i) := if f.container_id.isSome then
      (conds ++ ["container_id = $" ++ toString i], i + 1) else (conds, i)
  let (conds, i) := if f.storage_type.isSome then
      (conds ++ ["storage_type = $" ++ toString i], i + 1) else (conds, i)
  (conds, i)

/-- `where_clause`: empty, or "WHERE " followed by the conditions joined
with " AND " (both branches build it this way). -/
def whereClause (conds : List String) : String :=
  if conds.isEmpty then "" else "WHERE " ++ String.intercalate " AND " conds

/-- `query_str` of the Postgres branch (lines 247-261). -/
def pgItemQueryStr (f : ItemListFilters) : String :=
  itemSelectColumns ++ " " ++ whereClause (pgItemWhereConditions f).1
    ++ " ORDER BY created_at DESC LIMIT $" ++ toString (pgItemWhereConditions f).2
    ++ " OFFSET $" ++ toString ((pgItemWhereConditions f).2 + 1)

/-- `count_query_str` of the Postgres branch (line 263). -/
def pgItemCountQueryStr (f : ItemListFilters) : String :=
  "SELECT COUNT(*) as count FROM items " ++ whereClause (pgItemWhereConditions f).1

/-- The filter parameters in bind order, common content of the two Postgres
bind chains (search pattern bound four times, then the optional filters). -/
def pgItemFilterParams (f : ItemListFilters) : List SqlValue :=
  (match f.search with
   | none => []
   | some t => [SqlValue.s ("%" ++ t ++ "%"), SqlValue.s ("%" ++ t ++ "%"),
       SqlValue.s ("%" ++ t ++ "%"), SqlValue.s ("%" ++ t ++ "%")]) ++
  (match f.is_on_loan with | none => [] | some b => [SqlValue.b b]) ++
  (match f.is_disposed with | none => [] | some b => [SqlValue.b b]) ++
  (match f.container_id with | none => [] | some c => [SqlValue.s c]) ++
  (match f.storage_type with | none => [] | some t => [SqlValue.s t])

/-- The `query.bind(..)` chain of the Postgres row query (lines 266-301):
the filter values followed by limit and offset. -/
def pgItemRowQueryBinds (f : ItemListFilters) (limit offset : Int) : List SqlValue :=
  (match f.search with
   | none => []
   | some t => [SqlValue.s ("%" ++ t ++ "%"), SqlValue.s ("%" ++ t ++ "%"),
       SqlValue.s ("%" ++ t ++ "%"), SqlValue.s ("%" ++ t ++ "%")]) ++
  (match f.is_on_loan with | none => [] | some b => [SqlValue.b b]) ++
  (match f.is_disposed with | none => [] | some b => [SqlValue.b b]) ++
  (match f.container_id with | none => [] | some c => [SqlValue.s c]) ++
  (match f.storage_type with | none => [] | some t => [SqlValue.s t]) ++
  [SqlValue.i limit, SqlValue.i offset]

/-- The `count_query.bind(..)` chain of the Postgres count query. -/
def pgItemCountQueryBinds (f : ItemListFilters) : List SqlValue :=
  (match f.search with
   | none => []
   | some t => [SqlValue.s ("%" ++ t ++ "%"), SqlValue.s ("%" ++ t ++ "%"),
       SqlValue.s ("%" ++ t ++ "%"), SqlValue.s ("%" ++ t ++ "%")]) ++
  (match f.is_on_loan with | none => [] | some b => [SqlValue.b b]) ++
  (match f.is_disposed with | none => [] | some b => [SqlValue.b b]) ++
  (match f.container_id with | none => [] | some c => [SqlValue.s c]) ++
  (match f.storage_type with | none => [] | some t => [SqlValue.s t])

/-- `where_conditions` of the SQLite branch's filtered path (lines 320-345). -/
def sqliteItemWhereConditions (f : ItemListFilters) : List String :=
  (if f.search.isSome then
    ["(name LIKE ? OR label_id LIKE ? OR model_number LIKE ? OR remarks LIKE ?)"] else []) ++
  (if f.is_on_loan.isSome then ["is_on_loan = ?"] else []) ++
  (if f.is_disposed.isSome then ["is_disposed = ?"] else []) ++
  (if f.container_id.isSome then ["container_id = ?"] else []) ++
  (if f.storage_type.isSome then ["storage_type = ?"] else [])

/-- The no-filter test of the SQLite branch (line 354). -/
def sqliteNoFilters (f : ItemListFilters) : Bool :=
  f.search.isNone && f.is_on_loan.isNone && f.is_disposed.isNone &&
    f.container_id.isNone && f.storage_type.isNone

/-- Row-query SQL of the SQLite branch: the static no-filter query
(lines 356-367) or the dynamic one (lines 386-400). -/
def sqliteItemQueryStr (f : ItemListFilters) : String :=
  if sqliteNoFilters f then
    itemSelectColumns ++ " ORDER BY created_at DESC LIMIT ?1 OFFSET ?2"
  else
    itemSelectColumns ++ " " ++ whereClause (sqliteItemWhereConditions f)
      ++ " ORDER BY created_at DESC LIMIT ? OFFSET ?"

/-- Count-query SQL of the SQLite branch (line 378 or line 402). -/
def sqliteItemCountQueryStr (f : ItemListFilters) : String :=
  if sqliteNoFilters f then "SELECT COUNT(*) as count FROM items"
  else "SELECT COUNT(*) as count FROM items " ++ whereClause (sqliteItemWhereConditions f)

/-- Filter parameters of the SQLite branch in bind order; booleans are
bound as the i32 values 1/0 (lines 409-439). -/
def sqliteItemFilterParams (f : ItemListFilters) : List SqlValue :=
  (match f.search with
   | none => []
   | some t => [SqlValue.s ("%" ++ t ++ "%"), SqlValue.s ("%" ++ t ++ "%"),
       SqlValue.s ("%" ++ t ++ "%"), SqlValue.s ("%" ++ t ++ "%")]) ++
  (match f.is_on_loan with | none => [] | some b => [SqlValue.i (if b then 1 else 0)]) ++
  (match f.is_disposed with | none => [] | some b => [SqlValue.i (if b then 1 else 0)]) ++
  (match f.container_id with | none => [] | some c => [SqlValue.s c]) ++
  (match f.storage_type with | none => [] | some t => [SqlValue.s t])

/-- The `query.bind(..)` chain of the SQLite row query (both paths bind
limit and offset last). -/
def sqliteItemRowQueryBinds (f : ItemListFilters) (limit offset : Int) : List SqlValue :=
  (match f.search with
   | none => []
   | some t => [SqlValue.s ("%" ++ t ++ "%"), SqlValue.s ("%" ++ t ++ "%"),
       SqlValue.s ("%" ++ t ++ "%"), SqlValue.s ("%" ++ t ++ "%")]) ++
  (match f.is_on_loan with | none => [] | some b => [SqlValue.i (if b then 1 else 0)]) ++
  (match f.is_disposed with | none => [] | some b => [SqlValue.i (if b then 1 else 0)]) ++
  (match f.container_id with | none => [] | some c => [SqlValue.s c]) ++
  (match f.storage_type with | none => [] | some t => [SqlValue.s t]) ++
  [SqlValue.i limit, SqlValue.i offset]

/-- The `count_query.bind(..)` chain of the SQLite count query. -/
def sqliteItemCountQueryBinds (f : ItemListFilters) : List SqlValue :=
  (match f.search with
   | none => []
   | some t => [SqlValue.s ("%" ++ t ++ "%"), SqlValue.s ("%" ++ t ++ "%"),
       SqlValue.s ("%" ++ t ++ "%"), SqlValue.s ("%" ++ t ++ "%")]) ++
  (match f.is_on_loan with | none => [] | some b => [SqlValue.i (if b then 1 else 0)]) ++
  (match f.is_disposed with | none => [] | some b => [SqlValue.i (if b then 1 else 0)]) ++
  (match f.container_id with | none => [] | some c => [SqlValue.s c]) ++
  (match f.storage_type with | none => [] | some t => [SqlValue.s t])

/-- `let offset = ((page - 1) * per_page) as i64;` (line 202): a u32
multiplication, wrapping modulo 2^32 (release profile). -/
def listItemsOffset (page per_page : Nat) : Nat :=
  ((page - 1) * per_page) % 2 ^ 32

/-- `let limit = per_page as i64;` (line 203). -/
def listItemsLimit (per_page : Nat) : Nat := per_page

/-! ## JSON list columns and the row mapping (ItemService::row_to_item)

Embeds `ItemService::row_to_item` (src/services/item_service.rs, lines
954-983) and `row_to_item_postgres` (lines 985-1014).  After the dialect
driver has produced the column values the two functions are identical
field-for-field, so one Lean function models both.  The two multi-valued
columns are decoded with `.and_then(|s| serde_json::from_str(&s).ok())`:
a NULL column or a failed parse yields None and never fails the row read.

`parseJsonStringList` models `serde_json::from_str::<Vec<String>>` on the
grammar of JSON arrays of strings (whitespace, '[', comma-separated
double-quoted strings with the standard single-character escapes, ']').
`\uXXXX` escapes and serde's rejection of raw control characters inside
strings are not modelled; neither affects the claims proved here.
`encodeJsonStringList` models `serde_json::to_string::<Vec<String>>`, the
encoder used by `create_item`/`update_item` when these columns are
written. -/

/-- Whitespace characters insignificant to the JSON grammar (space, tab,
line feed, carriage return, by code point). -/
def isJsonWs (c : Char) : Bool :=
  c.toNat = 32 || c.toNat = 9 || c.toNat = 10 || c.toNat = 13

/-- Skip insignificant whitespace. -/
def skipWs (cs : List Char) : List Char := cs.dropWhile isJsonWs

/-- Consume one expected character. -/
def expectChar (c : Char) : List Char → Option (List Char)
  | [] => none
  | x :: xs => if x == c then some xs else none

/-- Decoding of a single-character JSON string escape (the control
characters by code point: \n 10, \t 9, \r 13, \b 8, \f 12). -/
def escDec : Char → Option Char
  | 'n' => some (Char.ofNat 10)
  | 't' => some (Char.ofNat 9)
  | 'r' => some (Char.ofNat 13)
  | 'b' => some (Char.ofNat 8)
  | 'f' => some (Char.ofNat 12)
  | '"' => some '"'
  | '\\' => some '\\'
  | '/' => some '/'
  | _ => none

/-- Parse the body of a JSON string after its opening quote; returns the
decoded characters and the input following the closing quote. -/
def parseStrChars : List Char → Option (List Char × List Char)
  | [] => none
  | c :: rest =>
    if c == '"' then some ([], rest)
    else if c == '\\' then
      match rest with
      | [] => none
      | e :: rest' =>
        match escDec e, parseStrChars rest' with
        | some d, some (cs, r) => some (d :: cs, r)
        | _, _ => none
    else
      match parseStrChars rest with
      | some (cs, r) => some (c :: cs, r)
      | none => none

/-- Parse the comma-separated elements of a nonempty JSON string array,
consuming the closing bracket.  The fuel argument only makes the recursion
structural; the caller supplies more fuel than there can be elements. -/
def parseElemsGo : Nat → List Char → Option (List String × List Char)
  | 0, _ => none
  | fuel + 1, cs =>
    match expectChar '"' (skipWs cs) with
    | none => none
    | some cs₁ =>
      match parseStrChars cs₁ with
      | none => none
      | some (sChars, cs₂) =>
        match expectChar ',' (skipWs cs₂) with
        | some cs₃ =>
          match parseElemsGo fuel cs₃ with
          | some (ss, r) => some (String.mk sChars :: ss, r)
          | none => none
        | none =>
          match expectChar ']' (skipWs cs₂) with
          | some cs₃ => some ([String.mk sChars], cs₃)
          | none => none

/-- Models `serde_json::from_str::<Vec<String>>`: a whole-input JSON array
of strings, or None. -/
def parseJsonStringList (str : String) : Option (List String) :=
  match expectChar '[' (skipWs str.data) with
  | none => none
  | some cs₁ =>
    match expectChar ']' (skipWs cs₁) with
    | some cs₂ => if (skipWs cs₂).isEmpty then some [] else none
    | none =>
      match parseElemsGo (cs₁.length + 1) cs₁ with
      | some (ss, rest) => if (skipWs rest).isEmpty then some ss else none
      | none => none

/-- JSON escaping of one character as `serde_json` writes string values
(the `\u00XX` forms for the remaining control characters are not
modelled). -/
def escEnc (c : Char) : List Char :=
  if c == '\\' then ['\\', '\\']
  else if c == '"' then ['\\', '"']
  else if c == Char.ofNat 10 then ['\\', 'n']
  else if c == Char.ofNat 9 then ['\\', 't']
  else if c == Char.ofNat 13 then ['\\', 'r']
  else if c == Char.ofNat 8 then ['\\', 'b']
  else if c == Char.ofNat 12 then ['\\', 'f']
  else [c]

/-- Escape every character of a string body. -/
def escChars : List Char → List Char
  | [] => []
  | c :: cs => escEnc c ++ escChars cs

/-- One encoded JSON string literal. -/
def encStr (s : String) : String := String.mk ('"' :: (escChars s.data ++ ['"']))

/-- The comma-separated encoded elements. -/
def encElems : List String → String
  | [] => ""
  | [s] => encStr s
  | s :: s' :: ss => encStr s ++ "," ++ encElems (s' :: ss)

/-- Models `serde_json::to_string::<Vec<String>>`. -/
def encodeJsonStringList (l : List String) : String := "[" ++ encElems l ++ "]"

/-- The raw SQL row consumed by `row_to_item` / `row_to_item_postgres`:
one field per selected column, already normalized by the dialect driver
(timestamps as abstract instants, booleans decoded).  The f32
`purchase_amount` column is omitted from the model (floating point). -/
structure ItemSqlRow where
  id : Int
  name : String
  label_id : String
  model_number : Option String
  remarks : Option String
  purchase_year : Option Int
  durability_years : Option Int
  is_depreciation_target : Option Bool
  connection_names : Option String
  cable_color_pattern : Option String
  storage_location : Option String
  container_id : Option String
  storage_type : Option String
  is_on_loan : Option Bool
  qr_code_type : Option String
  is_disposed : Option Bool
  image_url : Option String
  created_at : Int
  updated_at : Int
deriving DecidableEq, Repr

/-- The canonical `Item` entity (src/models/item.rs), restricted to the
fields the model carries (`purchase_amount` omitted, see `ItemSqlRow`). -/
structure Item where
  id : Int
  name : String
  label_id : String
  model_number : Option String
  remarks : Option String
  purchase_year : Option Int
  durability_years : Option Int
  is_depreciation_target : Option Bool
  connection_names : Option (List String)
  cable_color_pattern : Option (List String)
  storage_location : Option String
  container_id : Option String
  storage_type : String
  is_on_loan : Option Bool
  qr_code_type : Option String
  is_disposed : Option Bool
  image_url : Option String
  created_at : Int
  updated_at : Int
deriving DecidableEq, Repr

/-- Embeds `ItemService::row_to_item` and `row_to_item_postgres` (the two
bodies are identical): decodes the two JSON columns leniently and defaults
a NULL `storage_type` to "location". -/
def row_to_item (r : ItemSqlRow) : Item :=
  { id := r.id
    name := r.name
    label_id := r.label_id
    model_number := r.model_number
    remarks := r.remarks
    purchase_year := r.purchase_year
    durability_years := r.durability_years
    is_depreciation_target := r.is_depreciation_target
    connection_names := r.connection_names.bind (fun s => parseJsonStringList s)
    cable_color_pattern := r.cable_color_pattern.bind (fun s => parseJsonStringList s)
    storage_location := r.storage_location
    container_id := r.container_id
    storage_type := r.storage_type.getD "location"
    is_on_loan := r.is_on_loan
    qr_code_type := r.qr_code_type
    is_disposed := r.is_disposed
    image_url := r.image_url
    created_at := r.created_at
    updated_at := r.updated_at }

/-! ## list_items dialect equivalence (ItemService::list_items)

Embeds the logical result of the two dialect branches of
`ItemService::list_items` (src/services/item_service.rs, lines 192-463)
over an abstract table state.  The Postgres branch filters with a
four-column ILIKE disjunction and native boolean comparisons; the SQLite
branch uses LIKE and compares boolean columns against the bound integers
1/0 (the SQLite schema stores these booleans as integers, modelled by
`encodeSqliteRow`).  Postgres ILIKE and SQLite's default LIKE agree on
ASCII case folding, which is what `likeGo` models (their behaviour on
non-ASCII case pairs is outside the model).  Both branches issue
`ORDER BY created_at DESC`; SQL leaves the order of ties unspecified, and
the model resolves ties identically on both sides with one deterministic
sort, matching the spec's reading that ties are broken only by the explicit
ORDER BY.  LIMIT/OFFSET apply after sorting; the COUNT(*) total applies the
same predicate without the window. -/

/-- Logical row of the items table as consulted by the `list_items`
filters (decoded, dialect-independent values; `created_at` an abstract
instant). -/
structure ItemRow where
  id : Int
  name : String
  label_id : String
  model_number : Option String
  remarks : Option String
  is_on_loan : Option Bool
  is_disposed : Option Bool
  container_id : Option String
  storage_type : Option String
  created_at : Int
deriving DecidableEq, Repr

/-- SQLite wire form of the same row: boolean columns stored as 0/1
integers (NULL stays NULL). -/
structure SqliteItemRow where
  id : Int
  name : String
  label_id : String
  model_number : Option String
  remarks : Option String
  is_on_loan : Option Int
  is_disposed : Option Int
  container_id : Option String
  storage_type : Option String
  created_at : Int
deriving DecidableEq, Repr

/-- The SQLite integer encoding of one logical row. -/
def encodeSqliteRow (r : ItemRow) : SqliteItemRow :=
  { id := r.id
    name := r.name
    label_id := r.label_id
    model_number := r.model_number
    remarks := r.remarks
    is_on_loan := r.is_on_loan.map (fun b => if b then (1 : Int) else 0)
    is_disposed := r.is_disposed.map (fun b => if b then (1 : Int) else 0)
    container_id := r.container_id
    storage_type := r.storage_type
    created_at := r.created_at }

/-- SQL LIKE matching with the wildcards % and _, compared
ASCII-case-insensitively.  Fuel only makes the recursion structural;
`likeMatches` supplies enough (every recursive call shrinks
pattern-length + string-length). -/
def likeGo : Nat → List Char → List Char → Bool
  | 0, _, _ => false
  | _ + 1, [], [] => true
  | f + 1, '%' :: ps, s =>
      likeGo f ps s || (match s with
        | [] => false
        | _ :: s' => likeGo f ('%' :: ps) s')
  | f + 1, '_' :: ps, _ :: s => likeGo f ps s
  | f + 1, p :: ps, c :: s => (asciiLower p == asciiLower c) && likeGo f ps s
  | _ + 1, _, _ => false

/-- Whole-string LIKE / ILIKE match. -/
def likeMatches (pattern s : String) : Bool :=
  likeGo (pattern.length + s.length + 1) pattern.data s.data

/-- A LIKE comparison against a nullable column: NULL never matches. -/
def colLike (pattern : String) : Option String → Bool
  | none => false
  | some s => likeMatches pattern s

/-- The WHERE predicate of the Postgres branch as a row predicate: the
search term t is bound as the pattern %t% against name, label_id,
model_number and remarks via ILIKE; the remaining filters are equality
tests (a NULL column never equals a bound value). -/
def pgItemRowPred (f : ItemListFilters) (r : ItemRow) : Bool :=
  (match f.search with
   | none => true
   | some t =>
     colLike ("%" ++ t ++ "%") (some r.name) || colLike ("%" ++ t ++ "%") (some r.label_id)
       || colLike ("%" ++ t ++ "%") r.model_number
       || colLike ("%" ++ t ++ "%") r.remarks) &&
  (match f.is_on_loan with | none => true | some b => r.is_on_loan == some b) &&
  (match f.is_disposed with | none => true | some b => r.is_disposed == some b) &&
  (match f.container_id with | none => true | some c => r.container_id == some c) &&
  (match f.storage_type with | none => true | some t => r.storage_type == some t)

/-- The WHERE predicate of the SQLite branch: LIKE in place of ILIKE, and
the boolean filters bound as the integers 1/0 against the integer-encoded
columns. -/
def sqliteItemRowPred (f : ItemListFilters) (r : SqliteItemRow) : Bool :=
  (match f.search with
   | none => true
   | some t =>
     colLike ("%" ++ t ++ "%") (some r.name) || colLike ("%" ++ t ++ "%") (some r.label_id)
       || colLike ("%" ++ t ++ "%") r.model_number
       || colLike ("%" ++ t ++ "%") r.remarks) &&
  (match f.is_on_loan with
   | none => true
   | some b => r.is_on_loan == some (if b then (1 : Int) else 0)) &&
  (match f.is_disposed with
   | none => true
   | some b => r.is_disposed == some (if b then (1 : Int) else 0)) &&
  (match f.container_id with | none => true | some c => r.container_id == some c) &&
  (match f.storage_type with | none => true | some t => r.storage_type == some t)

/-- Insertion step of the deterministic ORDER BY created_at DESC model. -/
def insertDescBy {α : Type} (key : α → Int) (r : α) : List α → List α
  | [] => [r]
  | x :: xs => if key r ≤ key x then x :: insertDescBy key r xs else r :: x :: xs

/-- Deterministic descending sort by a key (shared by both dialect models:
SQL leaves tie order unspecified and the model resolves ties identically). -/
def sortDescBy {α : Type} (key : α → Int) (l : List α) : List α :=
  l.foldr (insertDescBy key) []

/-- Logical result of the Postgres branch of `list_items`: rows after
WHERE / ORDER BY created_at DESC / LIMIT per_page OFFSET offset, and the
COUNT(*) total over the same predicate. -/
def list_items_postgres (db : List ItemRow) (page per_page : Nat)
    (f : ItemListFilters) : List ItemRow × Int :=
  let filtered := db.filter (pgItemRowPred f)
  (((sortDescBy (fun r => r.created_at) filtered).drop
      (listItemsOffset page per_page)).take (listItemsLimit per_page),
   (filtered.length : Int))

/-- Logical result of the SQLite branch of `list_items`, including its
special-cased static no-filter path (line 354). -/
def list_items_sqlite (db : List SqliteItemRow) (page per_page : Nat)
    (f : ItemListFilters) : List SqliteItemRow × Int :=
  if sqliteNoFilters f then
    (((sortDescBy (fun r => r.created_at) db).drop
        (listItemsOffset page per_page)).take (listItemsLimit per_page),
     (db.length : Int))
  else
    let filtered := db.filter (sqliteItemRowPred f)
    (((sortDescBy (fun r => r.created_at) filtered).drop
        (listItemsOffset page per_page)).take (listItemsLimit per_page),
     (filtered.length : Int))

/-! ## Loan lifecycle (LoanService::create_loan / return_loan)

Embeds `LoanService::create_loan` (src/services/loan_service.rs, lines
16-129) and `LoanService::return_loan` (lines 387-482); in each, the two
dialect branches are identical up to placeholder style and boolean
literals.  The items table is keyed by its integer primary key and is
modelled as a partial map from id to the columns the loan code touches;
the loans table is the list of rows in insertion order together with the
id sequence (`RETURNING id` / `last_insert_rowid()`).  The claim considers
sequential execution, so the two writes of each operation are applied
together. -/

/-- The item columns consulted and mutated by the loan operations. -/
structure LoanItemRow where
  is_on_loan : Option Bool
  is_disposed : Option Bool
deriving DecidableEq, Repr

/-- One loans row, restricted to the columns the claim reasons about
(`return_date` as an abstract instant). -/
structure LoanRow where
  id : Int
  item_id : Int
  return_date : Option Int
deriving DecidableEq, Repr

/-- The database state acted on by the loan operations. -/
structure LoanState where
  items : Int → Option LoanItemRow
  loans : List LoanRow
  next_loan_id : Int

/-- Embeds `LoanService::create_loan`: checks the item exists and that
`is_on_loan.unwrap_or(false)` and `is_disposed.unwrap_or(false)` are both
false, inserts the loan row with a NULL return_date, and sets the item's
`is_on_loan` to true.  Returns the new loan id with the resulting state. -/
def create_loan (st : LoanState) (item_id : Int) :
    Except AppError (LoanState × Int) :=
  match st.items item_id with
  | none =>
      Except.error (AppError.NotFound ("Item with id " ++ toString item_id ++ " not found"))
  | some it =>
    if it.is_on_loan.getD false then
      Except.error (AppError.BadRequest "Item is already on loan")
    else if it.is_disposed.getD false then
      Except.error (AppError.BadRequest "Item is disposed and cannot be loaned")
    else
      Except.ok
        ({ items := fun i => if i = item_id then
              (st.items i).map (fun j => { j with is_on_loan := some true })
            else st.items i
           loans := st.loans
             ++ [{ id := st.next_loan_id, item_id := item_id, return_date := none }]
           next_loan_id := st.next_loan_id + 1 }, st.next_loan_id)

/-- Embeds `LoanService::return_loan`: checks the loan exists and has a
NULL return_date, stamps the return date (request-supplied or now), and
sets the loan's item's `is_on_loan` to false. -/
def return_loan (st : LoanState) (id : Int) (req_return_date : Option Int) (now : Int) :
    Except AppError LoanState :=
  match st.loans.find? (fun l => l.id == id) with
  | none =>
      Except.error (AppError.NotFound ("Loan with id " ++ toString id ++ " not found"))
  | some l =>
    if l.return_date.isSome then
      Except.error (AppError.BadRequest "Loan has already been returned")
    else
      Except.ok
        { items := fun i => if i = l.item_id then
              (st.items i).map (fun j => { j with is_on_loan := some false })
            else st.items i
          loans := st.loans.map (fun j => if j.id == id then
              { j with return_date := some (req_return_date.getD now) } else j)
          next_loan_id := st.next_loan_id }

/-- Number of active (NULL return_date) loan rows for an item. -/
def activeLoanCount (loans : List LoanRow) (item_id : Int) : Nat :=
  (loans.filter (fun l => l.item_id == item_id && l.return_date.isNone)).length

/-- States reachable by executing `create_loan` and `return_loan`
sequentially from a fresh state: no loan rows yet and no item flagged on
loan (items are created with `is_on_loan` defaulted to false or NULL). -/
inductive Reachable : LoanState → Prop
  | init (st : LoanState) (hloans : st.loans = [])
      (hflags : ∀ i it, st.items i = some it → it.is_on_loan.getD false = false) :
      Reachable st
  | createOk (st st' : LoanState) (item_id lid : Int) :
      Reachable st → create_loan st item_id = Except.ok (st', lid) → Reachable st'
  | returnOk (st st' : LoanState) (id : Int) (d : Option Int) (now : Int) :
      Reachable st → return_loan st id d now = Except.ok st' → Reachable st'

/-- The strengthened invariant maintained by the loan operations. -/
structure LoanInv (st : LoanState) : Prop where
  counts : ∀ i it, st.items i = some it →
    activeLoanCount st.loans i ≤ 1 ∧
      (it.is_on_loan.getD false = true ↔ activeLoanCount st.loans i = 1)
  ids_lt : ∀ l ∈ st.loans, l.id < st.next_loan_id
  ids_nodup : st.loans.Pairwise (fun a b => a.id ≠ b.id)

end HyperDashi

namespace HyperDashi

/-! ## Theorems: base-36 rendering -/

theorem natDigits36_zero : natDigits36 0 = [] := by
  unfold natDigits36; simp

theorem natDigits36_pos (n : Nat) (h : n ≠ 0) :
    natDigits36 n = natDigits36 (n / 36) ++ [n % 36] := by
  conv_lhs => unfold natDigits36
  simp [h]

theorem toRadix36Go_spec (fuel : Nat) :
    ∀ n acc, n ≤ fuel → toRadix36Go fuel n acc = (natDigits36 n).map digitChar36 ++ acc := by
  induction fuel with
  | zero =>
      intro n acc h
      interval_cases n
      simp [toRadix36Go, natDigits36_zero]
  | succ fuel ih =>
      intro n acc h
      by_cases hn : n = 0
      · simp [toRadix36Go, hn, natDigits36_zero]
      · have hlt : n / 36 < n := Nat.div_lt_self (Nat.pos_of_ne_zero hn) (by norm_num)
        rw [toRadix36Go, if_neg hn, ih (n / 36) _ (by omega), natDigits36_pos n hn]
        simp

theorem toRadix36_eq (n : Nat) (h : n ≠ 0) :
    toRadix36 n = (natDigits36 n).map digitChar36 := by
  rw [toRadix36, if_neg h, toRadix36Go_spec n n [] (le_refl n)]
  simp

theorem fixedDigits36_length (k n : Nat) : (fixedDigits36 k n).length = k := by
  induction k generalizing n with
  | zero => rfl
  | succ k ih => simp [fixedDigits36, ih]

theorem natDigits36_length_le (k : Nat) :
    ∀ n, n < 36 ^ k → (natDigits36 n).length ≤ k := by
  induction k with
  | zero => intro n h; interval_cases n; simp [natDigits36_zero]
  | succ k ih =>
      intro n h
      by_cases hn : n = 0
      · simp [hn, natDigits36_zero]
      · rw [natDigits36_pos n hn]
        have : n / 36 < 36 ^ k := by
          rw [Nat.div_lt_iff_lt_mul (by norm_num)]
          calc n < 36 ^ (k + 1) := h
          _ = 36 ^ k * 36 := by ring
        simpa using Nat.succ_le_succ (ih (n / 36) this)

theorem fixedDigits36_split (k : Nat) :
    ∀ m, m < 36 ^ (k + 1) →
      fixedDigits36 (k + 1) m = fixedDigits36 k (m / 36) ++ [m % 36] := by
  induction k with
  | zero =>
      intro m h
      have h36 : m < 36 := by simpa using h
      simp [fixedDigits36, Nat.mod_one, Nat.mod_eq_of_lt h36]
  | succ k ih =>
      intro m h
      have hmod : m % 36 ^ (k + 1) < 36 ^ (k + 1) :=
        Nat.mod_lt _ (Nat.pos_pow_of_pos _ (by norm_num))
      rw [show fixedDigits36 (k + 1 + 1) m
            = m / 36 ^ (k + 1) :: fixedDigits36 (k + 1) (m % 36 ^ (k + 1)) from rfl,
          ih (m % 36 ^ (k + 1)) hmod,
          show fixedDigits36 (k + 1) (m / 36)
            = m / 36 / 36 ^ k :: fixedDigits36 k (m / 36 % 36 ^ k) from rfl]
      have e1 : m / 36 / 36 ^ k = m / 36 ^ (k + 1) := by
        rw [Nat.div_div_eq_div_mul]; ring_nf
      have e2 : m % 36 ^ (k + 1) / 36 = m / 36 % 36 ^ k := by
        rw [show (36 : Nat) ^ (k + 1) = 36 * 36 ^ k by ring, Nat.mod_mul_right_div_self]
      have e3 : m % 36 ^ (k + 1) % 36 = m % 36 := by
        rw [show (36 : Nat) ^ (k + 1) = 36 * 36 ^ k by ring, Nat.mod_mul_right_mod]
      rw [e1, e2, e3]
      simp

theorem natDigits36_exact (k : Nat) :
    ∀ n, 36 ^ k ≤ n → n < 36 ^ (k + 1) → natDigits36 n = fixedDigits36 (k + 1) n := by
  induction k with
  | zero =>
      intro n h1 h2
      simp only [pow_zero] at h1
      have hn : n ≠ 0 := by omega
      have h36 : n < 36 := by simpa using h2
      rw [natDigits36_pos n hn, fixedDigits36_split 0 n h2,
          Nat.div_eq_of_lt h36, natDigits36_zero]
      simp [fixedDigits36]
  | succ k ih =>
      intro n h1 h2
      have hn : n ≠ 0 := by
        have : 0 < 36 ^ (k + 1) := Nat.pos_pow_of_pos _ (by norm_num)
        omega
      have hd1 : 36 ^ k ≤ n / 36 := by
        rw [Nat.le_div_iff_mul_le (by norm_num)]
        calc 36 ^ k * 36 = 36 ^ (k + 1) := by ring
        _ ≤ n := h1
      have hd2 : n / 36 < 36 ^ (k + 1) := by
        rw [Nat.div_lt_iff_lt_mul (by norm_num)]
        calc n < 36 ^ (k + 2) := h2
        _ = 36 ^ (k + 1) * 36 := by ring
      rw [natDigits36_pos n hn, ih (n / 36) hd1 hd2, fixedDigits36_split (k + 1) n h2]

theorem natDigits36_pad (k : Nat) :
    ∀ n, n < 36 ^ k →
      List.replicate (k - (natDigits36 n).length) 0 ++ natDigits36 n = fixedDigits36 k n := by
  induction k with
  | zero =>
      intro n h
      have : n = 0 := by omega
      subst this
      simp [natDigits36_zero, fixedDigits36]
  | succ k ih =>
      intro n h
      by_cases hk : n < 36 ^ k
      · have hlen : (natDigits36 n).length ≤ k := natDigits36_length_le k n hk
        have hdiv : n / 36 ^ k = 0 := Nat.div_eq_of_lt hk
        have hmod : n % 36 ^ k = n := Nat.mod_eq_of_lt hk
        rw [show fixedDigits36 (k + 1) n = n / 36 ^ k :: fixedDigits36 k (n % 36 ^ k) from rfl,
            hdiv, hmod, ← ih n hk,
            show k + 1 - (natDigits36 n).length = (k - (natDigits36 n).length) + 1 by omega,
            List.replicate_succ]
        simp
      · have hexact : natDigits36 n = fixedDigits36 (k + 1) n :=
          natDigits36_exact k n (by omega) h
        rw [hexact, fixedDigits36_length]
        simp

theorem labelRender_data (n : Nat) (h : n < 36 ^ 4) :
    (labelRender n).data = (fixedDigits36 4 n).map digitChar36 := by
  by_cases hn : n = 0
  · subst hn; decide
  · show padLeft4 (toRadix36 n) = _
    rw [toRadix36_eq n hn, padLeft4, List.length_map,
        show ('0' : Char) = digitChar36 0 from rfl, ← List.map_replicate, ← List.map_append,
        natDigits36_pad 4 n h]

theorem labelRender_length (n : Nat) (h : n < 36 ^ 4) : (labelRender n).length = 4 := by
  show (labelRender n).data.length = 4
  rw [labelRender_data n h]
  simp [fixedDigits36_length]

theorem fixedDigits36_bounded (k : Nat) :
    ∀ n, n < 36 ^ k → ∀ d ∈ fixedDigits36 k n, d < 36 := by
  induction k with
  | zero => intro n _ d hd; simp [fixedDigits36] at hd
  | succ k ih =>
      intro n h d hd
      simp only [fixedDigits36, List.mem_cons] at hd
      rcases hd with rfl | hd
      · rw [Nat.div_lt_iff_lt_mul (Nat.pos_pow_of_pos _ (by norm_num))]
        calc n < 36 ^ (k + 1) := h
        _ ≤ 36 * 36 ^ k := by ring_nf; omega
      · exact ih (n % 36 ^ k) (Nat.mod_lt _ (Nat.pos_pow_of_pos _ (by norm_num))) d hd

theorem fixedDigits36_lex (k : Nat) :
    ∀ m n, m < n → n < 36 ^ k →
      List.Lex (· < ·) (fixedDigits36 k m) (fixedDigits36 k n) := by
  induction k with
  | zero => intro m n h1 h2; simp at h2; omega
  | succ k ih =>
      intro m n h1 h2
      show List.Lex (· < ·) (m / 36 ^ k :: fixedDigits36 k (m % 36 ^ k))
        (n / 36 ^ k :: fixedDigits36 k (n % 36 ^ k))
      rcases Nat.lt_or_ge (m / 36 ^ k) (n / 36 ^ k) with hq | hq
      · exact List.Lex.rel hq
      · have hq' : m / 36 ^ k = n / 36 ^ k :=
          le_antisymm (Nat.div_le_div_right (le_of_lt h1)) hq
        rw [hq']
        apply List.Lex.cons
        have hmr : m % 36 ^ k < n % 36 ^ k := by
          have hcmp := h1
          rw [← Nat.div_add_mod m (36 ^ k), ← Nat.div_add_mod n (36 ^ k), hq'] at hcmp
          exact Nat.lt_of_add_lt_add_left hcmp
        exact ih _ _ hmr (Nat.mod_lt _ (Nat.pos_pow_of_pos _ (by norm_num)))

theorem digitChar36_mono : ∀ a < 36, ∀ b < 36, a < b → digitChar36 a < digitChar36 b := by
  decide

theorem lex_map_digitChar36 {l₁ l₂ : List Nat} (h : List.Lex (· < ·) l₁ l₂) :
    (∀ d ∈ l₁, d < 36) → (∀ d ∈ l₂, d < 36) →
      List.Lex (· < ·) (l₁.map digitChar36) (l₂.map digitChar36) := by
  induction h with
  | nil => intro _ _; exact List.Lex.nil
  | cons h ih =>
      intro hb1 hb2
      exact List.Lex.cons (ih (fun d hd => hb1 d (List.mem_cons_of_mem _ hd))
        (fun d hd => hb2 d (List.mem_cons_of_mem _ hd)))
  | rel hab =>
      intro hb1 hb2
      exact List.Lex.rel (digitChar36_mono _ (hb1 _ (List.mem_cons_self _ _)) _
        (hb2 _ (List.mem_cons_self _ _)) hab)

theorem labelRender_lt (m n : Nat) (h1 : m < n) (h2 : n < 36 ^ 4) :
    labelRender m < labelRender n := by
  apply String.lt_iff_toList_lt.mpr
  show (labelRender m).data < (labelRender n).data
  rw [labelRender_data m (lt_trans h1 h2), labelRender_data n h2]
  show List.Lex (· < ·) _ _
  exact lex_map_digitChar36 (fixedDigits36_lex 4 m n h1 h2)
    (fixedDigits36_bounded 4 m (lt_trans h1 h2)) (fixedDigits36_bounded 4 n h2)

/-- C1: for every quantity in 1..1000 and every counter state with
`0 ≤ current_value` and `current_value + quantity ≤ 1679615`,
`generate_label_ids(quantity)` returns exactly `quantity` codes, namely the
base-36, uppercase, zero-padded-to-4-character renderings of the integers
`current_value+1 .. current_value+quantity`; the codes are pairwise
distinct, strictly increasing in allocation order, each exactly 4
characters long, and the counter row is updated to
`current_value + quantity`. -/
theorem c1_generate_label_ids (st : CounterState) (q : Nat)
    (h1 : 1 ≤ q) (h2 : q ≤ 1000) (h3 : 0 ≤ st.current_value)
    (h4 : st.current_value + (q : Int) ≤ 1679615) :
    ∃ ids : List String,
      generate_label_ids st q = (Except.ok ids, ⟨st.current_value + (q : Int)⟩) ∧
      ids = (List.range q).map (fun i => labelRender (st.current_value.toNat + (i + 1))) ∧
      ids.length = q ∧
      ids.Pairwise (· < ·) ∧
      ids.Pairwise (· ≠ ·) ∧
      ∀ s ∈ ids, s.length = 4 := by
  have hguard : ¬ st.current_value + (q : Int) > maxLabelValue := by
    simp only [maxLabelValue]; omega
  have hmap : (List.range q).map
        (fun i => labelRender ((st.current_value + ((i : Int) + 1)) % (2 ^ 32)).toNat)
      = (List.range q).map (fun i => labelRender (st.current_value.toNat + (i + 1))) := by
    apply List.map_congr_left
    intro i hi
    have hi' : i < q := List.mem_range.mp hi
    have hb : st.current_value + ((i : Int) + 1) < 2 ^ 32 := by omega
    have hnn : 0 ≤ st.current_value + ((i : Int) + 1) := by omega
    rw [Int.emod_eq_of_lt hnn hb]
    congr 1
    omega
  have hlt : ((List.range q).map
      (fun i => labelRender (st.current_value.toNat + (i + 1)))).Pairwise (· < ·) := by
    rw [List.pairwise_map]
    apply (List.pairwise_lt_range q).imp_of_mem
    intro a b _ hb hab
    apply labelRender_lt _ _ (by omega)
    have hb' : b < q := List.mem_range.mp hb
    have h36 : (36 : Nat) ^ 4 = 1679616 := by norm_num
    omega
  refine ⟨(List.range q).map (fun i => labelRender (st.current_value.toNat + (i + 1))),
      ?_, rfl, by simp, hlt, hlt.imp (fun h => ne_of_lt h), ?_⟩
  · rw [generate_label_ids, if_neg hguard, hmap]
  · intro s hs
    obtain ⟨i, hi, rfl⟩ := List.mem_map.mp hs
    have hi' : i < q := List.mem_range.mp hi
    apply labelRender_length
    have h36 : (36 : Nat) ^ 4 = 1679616 := by norm_num
    omega

/-- C1 witness: concrete instantiation at counter value 0, quantity 3. -/
theorem c1_generate_label_ids_witness :
    (1 ≤ 3 ∧ 3 ≤ 1000 ∧ (0 : Int) ≤ 0 ∧ (0 : Int) + (3 : Nat) ≤ 1679615) ∧
    ∃ ids : List String,
      generate_label_ids ⟨0⟩ 3 = (Except.ok ids, ⟨(0 : Int) + (3 : Nat)⟩) ∧
      ids = (List.range 3).map (fun i => labelRender ((0 : Int).toNat + (i + 1))) ∧
      ids.length = 3 ∧
      ids.Pairwise (· < ·) ∧
      ids.Pairwise (· ≠ ·) ∧
      ∀ s ∈ ids, s.length = 4 :=
  ⟨⟨by decide, by decide, by decide, by decide⟩,
    c1_generate_label_ids ⟨0⟩ 3 (by decide) (by decide) (by decide) (by decide)⟩

/-- C3: whenever `current_value + quantity > 1679615`, `generate_label_ids`
fails with a bad-request error, returns no codes, and the counter state is
unchanged (the error return happens inside the transaction, before the
counter UPDATE, so the transaction is rolled back). -/
theorem c3_generate_label_ids_exhausted (st : CounterState) (q : Nat)
    (h : st.current_value + (q : Int) > 1679615) :
    generate_label_ids st q
      = (Except.error (AppError.BadRequest "Not enough label IDs available"), st) := by
  rw [generate_label_ids, if_pos (by simpa [maxLabelValue] using h)]

/-- C3 witness: allocating 1 label with the counter already at 1679615. -/
theorem c3_generate_label_ids_exhausted_witness :
    ((1679615 : Int) + (1 : Nat) > 1679615) ∧
    generate_label_ids ⟨1679615⟩ 1
      = (Except.error (AppError.BadRequest "Not enough label IDs available"), ⟨1679615⟩) :=
  ⟨by decide, c3_generate_label_ids_exhausted ⟨1679615⟩ 1 (by decide)⟩

theorem eqIgnoreAsciiCase_asc (s : String) :
    eqIgnoreAsciiCase s "asc" = true ↔ s.data.map asciiLower = "asc".data := by
  unfold eqIgnoreAsciiCase
  rw [show ("asc".data.map asciiLower) = "asc".data by decide]
  exact beq_iff_eq

/-- C8: in both dialect branches of `list_containers`, the ORDER BY column
is resolved through the fixed mapping name ↦ c.name, location ↦ c.location,
item_count ↦ item_count, created_at ↦ c.created_at, updated_at ↦
c.updated_at, is_disposed ↦ c.is_disposed, and every other string maps to
the default c.created_at (never passed through to SQL); the direction is
ASC exactly when sort_order equals "asc" ASCII-case-insensitively and DESC
for every other string.  Both branches implement the same mapping. -/
theorem c8_container_sort_allowlist (sort_by sort_order : String) :
    pgContainerSortColumn sort_by = sqliteContainerSortColumn sort_by ∧
    pgContainerSortDirection sort_order = sqliteContainerSortDirection sort_order ∧
    (sort_by = "name" → pgContainerSortColumn sort_by = "c.name") ∧
    (sort_by = "location" → pgContainerSortColumn sort_by = "c.location") ∧
    (sort_by = "item_count" → pgContainerSortColumn sort_by = "item_count") ∧
    (sort_by = "created_at" → pgContainerSortColumn sort_by = "c.created_at") ∧
    (sort_by = "updated_at" → pgContainerSortColumn sort_by = "c.updated_at") ∧
    (sort_by = "is_disposed" → pgContainerSortColumn sort_by = "c.is_disposed") ∧
    (sort_by ∉ (["name", "location", "item_count", "created_at", "updated_at",
        "is_disposed"] : List String) →
      pgContainerSortColumn sort_by = "c.created_at") ∧
    (pgContainerSortDirection sort_order = "ASC"
      ↔ sort_order.data.map asciiLower = "asc".data) ∧
    (sort_order.data.map asciiLower ≠ "asc".data →
      pgContainerSortDirection sort_order = "DESC") := by
  refine ⟨rfl, rfl, ?_, ?_, ?_, ?_, ?_, ?_, ?_, ?_, ?_⟩
  · intro h; subst h; rfl
  · intro h; subst h; rfl
  · intro h; subst h; rfl
  · intro h; subst h; rfl
  · intro h; subst h; rfl
  · intro h; subst h; rfl
  · intro hmem
    simp only [List.mem_cons, List.not_mem_nil, or_false, not_or] at hmem
    obtain ⟨n1, n2, n3, n4, n5, n6⟩ := hmem
    simp [pgContainerSortColumn, n1, n2, n3, n4, n5, n6]
  · unfold pgContainerSortDirection
    rcases h : eqIgnoreAsciiCase sort_order "asc" with _ | _
    · rw [if_neg (by simp [h])]
      constructor
      · intro hd; exact absurd hd (by decide)
      · intro hd
        exact absurd ((eqIgnoreAsciiCase_asc sort_order).mpr hd) (by simp [h])
    · rw [if_pos rfl]
      exact ⟨fun _ => (eqIgnoreAsciiCase_asc sort_order).mp h, fun _ => rfl⟩
  · intro hne
    unfold pgContainerSortDirection
    rw [if_neg ?_]
    intro hcase
    exact hne ((eqIgnoreAsciiCase_asc sort_order).mp hcase)

/-- C8 witness: an unrecognized sort key falls back to the default column,
and a mixed-case "AsC" sorts ascending. -/
theorem c8_container_sort_allowlist_witness :
    pgContainerSortColumn "bogus; DROP TABLE" = "c.created_at" ∧
    pgContainerSortDirection "AsC" = "ASC" := by
  obtain ⟨-, -, -, -, -, -, -, -, hdef, -, -⟩ :=
    c8_container_sort_allowlist "bogus; DROP TABLE" "x"
  obtain ⟨-, -, -, -, -, -, -, -, -, hiff, -⟩ :=
    c8_container_sort_allowlist "y" "AsC"
  exact ⟨hdef (by decide), hiff.mpr (by decide)⟩

/-- C4: evaluation of both dialect branches of `delete_container` on a
container "AAAA" whose only referencing item is disposed
(`is_disposed = true`).  No non-disposed item references the container and
the container exists, so by the claim the deletion must succeed in both
branches; the SQLite branch indeed succeeds, but the Postgres branch —
whose count query lacks the disposal filter — rejects with the conflict
error.  The two branches are therefore not identical and the Postgres
branch contradicts the spec invariant (which only non-disposed items may
enforce), the sibling SQLite branch, and `check_containers_have_items`
(used by `bulk_delete_containers`), which filters disposed items in both
dialects. -/
theorem c4_delete_container_divergence :
    delete_container_postgres
        ⟨[⟨some "AAAA", some "container", some true⟩], ["AAAA"]⟩ "AAAA"
      = Except.error (AppError.BadRequest "Cannot delete container that contains items") ∧
    delete_container_sqlite
        ⟨[⟨some "AAAA", some "container", some true⟩], ["AAAA"]⟩ "AAAA"
      = Except.ok ⟨[⟨some "AAAA", some "container", some true⟩], []⟩ :=
  ⟨rfl, rfl⟩

/-- C5: evaluation of the Postgres branch of `update_container` on a
request supplying both `image_url` and `is_disposed`.  Because the binds
are issued in the order is_disposed, image_url while the SET clause numbers
the placeholders in the order image_url, is_disposed, the executed
assignment gives the `image_url` column the boolean and the `is_disposed`
column the URL — not the supplied values the claim requires.  The SQLite
branch of the same function pairs every supplied field with its own value. -/
theorem c5_update_container_bind_order_bug :
    pgUpdateContainerAssignments
        ⟨none, none, none, some "https://example.com/a.png", some true⟩ 0
      = [("image_url", SqlValue.b true),
         ("is_disposed", SqlValue.s "https://example.com/a.png"),
         ("updated_at", SqlValue.time 0)] ∧
    sqliteUpdateContainerAssignments
        ⟨none, none, none, some "https://example.com/a.png", some true⟩ "now"
      = [("image_url", "https://example.com/a.png"),
         ("is_disposed", "1"),
         ("updated_at", "now")] ∧
    pgUpdateContainerAssignments
        ⟨none, none, none, some "https://example.com/a.png", some true⟩ 0
      ≠ [("image_url", SqlValue.s "https://example.com/a.png"),
         ("is_disposed", SqlValue.b true),
         ("updated_at", SqlValue.time 0)] :=
  ⟨rfl, rfl, by decide⟩

theorem usedLabels_foldl_isSome (rows : List ItemLabelRow) :
    ∀ (m : String → Option String) (k : String),
      ((rows.foldl (fun m r => fun k => if k == r.label_id then some r.name else m k) m) k).isSome
        = (rows.any (fun r => r.label_id == k) || (m k).isSome) := by
  induction rows with
  | nil => intro m k; simp
  | cons r t ih =>
      intro m k
      rw [List.foldl_cons, ih]
      by_cases h : k = r.label_id
      · subst h; simp
      · have h1 : (k == r.label_id) = false := beq_eq_false_iff_ne.mpr h
        have h2 : (r.label_id == k) = false := beq_eq_false_iff_ne.mpr (Ne.symm h)
        simp [h1, h2, List.any_cons]

theorem usedLabelsMap_isSome (rows : List ItemLabelRow) (k : String) :
    (usedLabelsMap rows k).isSome
      = (rows.filter (fun r => r.label_id.length == 4)).any (fun r => r.label_id == k) := by
  rw [usedLabelsMap, usedLabels_foldl_isSome]
  simp

/-- C10: `get_all_labels` returns exactly 1,679,616 entries, one for every
4-character base-36 code from "0000" to "ZZZZ" in increasing numeric order
(the entry at index k carries the rendering of k, and the ids are strictly
increasing), and marks an entry as used — carrying the owning item row's
name from the used-labels map — exactly when some item row holds that code
as its `label_id`.  The map is built from item rows only, so labels drawn
from the shared pool by containers are reported unused. -/
theorem c10_get_all_labels (rows : List ItemLabelRow) (k : Nat) (hk : k < 1679616) :
    (get_all_labels rows).length = 1679616 ∧
    (get_all_labels rows)[k]? = some
      { id := labelRender k
        used := (usedLabelsMap rows (labelRender k)).isSome
        item_name := usedLabelsMap rows (labelRender k) } ∧
    ((usedLabelsMap rows (labelRender k)).isSome = true
      ↔ ∃ r ∈ rows, r.label_id = labelRender k) ∧
    ((get_all_labels rows).map (fun li => li.id)).Pairwise (· < ·) := by
  have h36 : (36 : Nat) ^ 4 = 1679616 := by norm_num
  refine ⟨by simp [get_all_labels], ?_, ?_, ?_⟩
  · simp only [get_all_labels]
    rw [List.getElem?_map, List.getElem?_range hk]
    rfl
  · rw [usedLabelsMap_isSome]
    constructor
    · intro h
      obtain ⟨r, hmem, hbeq⟩ := List.any_eq_true.mp h
      exact ⟨r, List.mem_of_mem_filter hmem, eq_of_beq hbeq⟩
    · rintro ⟨r, hr, heq⟩
      apply List.any_eq_true.mpr
      have h4 : (labelRender k).length = 4 := labelRender_length k (by omega)
      refine ⟨r, List.mem_filter.mpr ⟨hr, by simp [heq, h4]⟩, by simp [heq]⟩
  · simp only [get_all_labels, List.map_map]
    rw [List.pairwise_map]
    apply (List.pairwise_lt_range _).imp_of_mem
    intro a b _ hb hab
    have hb' : b < 1679616 := List.mem_range.mp hb
    exact labelRender_lt a b hab (by omega)

theorem stringMkData (s : String) : String.mk s.data = s := by
  obtain ⟨d⟩ := s; rfl

theorem skipWs_cons (c : Char) (cs : List Char) (h : isJsonWs c = false) :
    skipWs (c :: cs) = c :: cs := by
  simp [skipWs, List.dropWhile_cons, h]

theorem parseStrChars_esc (e d : Char) (he : escDec e = some d) (tail cs rest : List Char)
    (htail : parseStrChars tail = some (cs, rest)) :
    parseStrChars ('\\' :: e :: tail) = some (d :: cs, rest) := by
  rw [parseStrChars.eq_def]
  simp [he, htail]

theorem parseStrChars_raw (c : Char) (h1 : (c == '"') = false) (h2 : (c == '\\') = false)
    (tail cs rest : List Char) (htail : parseStrChars tail = some (cs, rest)) :
    parseStrChars (c :: tail) = some (c :: cs, rest) := by
  rw [parseStrChars.eq_def]
  simp [h1, h2, htail]

theorem parseStrChars_encode (s : List Char) :
    ∀ rest, parseStrChars (escChars s ++ ('"' :: rest)) = some (s, rest) := by
  induction s with
  | nil =>
      intro rest
      rw [show escChars [] = [] from rfl, List.nil_append, parseStrChars.eq_def]
      simp
  | cons c cs ih =>
      intro rest
      rw [show escChars (c :: cs) = escEnc c ++ escChars cs from rfl, List.append_assoc]
      by_cases h1 : c = '\\'
      · subst h1; exact parseStrChars_esc '\\' '\\' (by decide) _ _ _ (ih rest)
      by_cases h2 : c = '"'
      · subst h2; exact parseStrChars_esc '"' '"' (by decide) _ _ _ (ih rest)
      by_cases h3 : c = Char.ofNat 10
      · subst h3; exact parseStrChars_esc 'n' (Char.ofNat 10) (by decide) _ _ _ (ih rest)
      by_cases h4 : c = Char.ofNat 9
      · subst h4; exact parseStrChars_esc 't' (Char.ofNat 9) (by decide) _ _ _ (ih rest)
      by_cases h5 : c = Char.ofNat 13
      · subst h5; exact parseStrChars_esc 'r' (Char.ofNat 13) (by decide) _ _ _ (ih rest)
      by_cases h6 : c = Char.ofNat 8
      · subst h6; exact parseStrChars_esc 'b' (Char.ofNat 8) (by decide) _ _ _ (ih rest)
      by_cases h7 : c = Char.ofNat 12
      · subst h7; exact parseStrChars_esc 'f' (Char.ofNat 12) (by decide) _ _ _ (ih rest)
      · rw [show escEnc c = [c] by simp [escEnc, h1, h2, h3, h4, h5, h6, h7]]
        exact parseStrChars_raw c (by simp [h2]) (by simp [h1]) _ _ _ (ih rest)

theorem parseElemsGo_encode (l : List String) :
    ∀ (fuel : Nat) (rest : List Char), l ≠ [] → l.length ≤ fuel →
      parseElemsGo fuel ((encElems l).data ++ (']' :: rest)) = some (l, rest) := by
  induction l with
  | nil => intro _ _ h; exact absurd rfl h
  | cons s ss ih =>
      intro fuel rest _ hlen
      obtain ⟨f, rfl⟩ : ∃ f, fuel = f + 1 := ⟨fuel - 1, by simp at hlen; omega⟩
      cases ss with
      | nil =>
          have hin : (encElems [s]).data ++ (']' :: rest)
              = '"' :: (escChars s.data ++ ('"' :: (']' :: rest))) := by
            show (encStr s).data ++ (']' :: rest) = _
            simp [encStr]
          rw [hin]
          have a1 : skipWs ('"' :: (escChars s.data ++ ('"' :: (']' :: rest))))
              = '"' :: (escChars s.data ++ ('"' :: (']' :: rest))) :=
            skipWs_cons _ _ (by decide)
          have a2 : expectChar '"' ('"' :: (escChars s.data ++ ('"' :: (']' :: rest))))
              = some (escChars s.data ++ ('"' :: (']' :: rest))) := by simp [expectChar]
          have a3 := parseStrChars_encode s.data (']' :: rest)
          have a4 : skipWs (']' :: rest) = ']' :: rest := skipWs_cons _ _ (by decide)
          have a5 : expectChar ',' (']' :: rest) = none := by simp [expectChar]
          have a6 : expectChar ']' (']' :: rest) = some rest := by simp [expectChar]
          simp only [parseElemsGo, a1, a2, a3, a4, a5, a6, stringMkData]
      | cons s' ss' =>
          have hin : (encElems (s :: s' :: ss')).data ++ (']' :: rest)
              = '"' :: (escChars s.data ++ ('"' :: (',' ::
                  ((encElems (s' :: ss')).data ++ (']' :: rest))))) := by
            show (encStr s ++ "," ++ encElems (s' :: ss')).data ++ (']' :: rest) = _
            simp [encStr, String.data_append]
          rw [hin]
          have a1 : skipWs ('"' :: (escChars s.data ++ ('"' :: (',' ::
              ((encElems (s' :: ss')).data ++ (']' :: rest))))))
              = '"' :: (escChars s.data ++ ('"' :: (',' ::
                  ((encElems (s' :: ss')).data ++ (']' :: rest))))) :=
            skipWs_cons _ _ (by decide)
          have a2 : expectChar '"' ('"' :: (escChars s.data ++ ('"' :: (',' ::
              ((encElems (s' :: ss')).data ++ (']' :: rest))))))
              = some (escChars s.data ++ ('"' :: (',' ::
                  ((encElems (s' :: ss')).data ++ (']' :: rest))))) := by simp [expectChar]
          have a3 := parseStrChars_encode s.data
            (',' :: ((encElems (s' :: ss')).data ++ (']' :: rest)))
          have a4 : skipWs (',' :: ((encElems (s' :: ss')).data ++ (']' :: rest)))
              = ',' :: ((encElems (s' :: ss')).data ++ (']' :: rest)) :=
            skipWs_cons _ _ (by decide)
          have a5 : expectChar ',' (',' :: ((encElems (s' :: ss')).data ++ (']' :: rest)))
              = some ((encElems (s' :: ss')).data ++ (']' :: rest)) := by simp [expectChar]
          have a6 := ih f rest (by simp) (by simp at hlen ⊢; omega)
          simp only [parseElemsGo, a1, a2, a3, a4, a5, a6, stringMkData]

theorem encElems_length (l : List String) : l.length ≤ (encElems l).data.length + 1 := by
  induction l with
  | nil => simp
  | cons s ss ih =>
      cases ss with
      | nil => simp
      | cons s' ss' =>
          show (s :: s' :: ss').length
            ≤ (encStr s ++ "," ++ encElems (s' :: ss')).data.length + 1
          simp only [String.data_append, List.length_append, List.length_cons] at *
          simp [encStr] at *
          omega

theorem parse_encode_roundtrip (l : List String) :
    parseJsonStringList (encodeJsonStringList l) = some l := by
  cases l with
  | nil => rfl
  | cons s ss =>
    have hdata : (encodeJsonStringList (s :: ss)).data
        = '[' :: ((encElems (s :: ss)).data ++ (']' :: [])) := by
      simp [encodeJsonStringList, String.data_append]
    have hhead : ∃ t, (encElems (s :: ss)).data = '"' :: t := by
      cases ss with
      | nil => exact ⟨escChars s.data ++ ['"'], rfl⟩
      | cons s' ss' =>
          refine ⟨(escChars s.data ++ ['"']) ++ (',' :: (encElems (s' :: ss')).data), ?_⟩
          show (encStr s ++ "," ++ encElems (s' :: ss')).data = _
          simp [encStr, String.data_append]
    obtain ⟨t, ht⟩ := hhead
    have e0 : skipWs ('[' :: ((encElems (s :: ss)).data ++ (']' :: [])))
        = '[' :: ((encElems (s :: ss)).data ++ (']' :: [])) := skipWs_cons _ _ (by decide)
    have e1 : expectChar '[' ('[' :: ((encElems (s :: ss)).data ++ (']' :: [])))
        = some ((encElems (s :: ss)).data ++ (']' :: [])) := by simp [expectChar]
    have e2 : skipWs ((encElems (s :: ss)).data ++ (']' :: []))
        = '"' :: (t ++ (']' :: [])) := by
      rw [ht, List.cons_append, skipWs_cons _ _ (by decide)]
    have e3 : expectChar ']' ('"' :: (t ++ (']' :: []))) = none := by simp [expectChar]
    have hfuel : (s :: ss).length
        ≤ ((encElems (s :: ss)).data ++ (']' :: [])).length + 1 := by
      have := encElems_length (s :: ss)
      simp only [List.length_append]
      simp at this ⊢
      omega
    have e4 := parseElemsGo_encode (s :: ss)
      (((encElems (s :: ss)).data ++ (']' :: [])).length + 1) [] (by simp) hfuel
    simp only [parseJsonStringList, hdata, e0, e1, e2, e3, e4]
    rfl

/-- C9: the row-to-Item mapping decodes `connection_names` and
`cable_color_pattern` from a JSON-encoded string into an ordered sequence
of strings preserving element order (decoding inverts the JSON encoding
used when the columns are written); when the column is NULL or its contents
do not parse as a JSON list of strings, the field maps to None and the read
still succeeds — `row_to_item` is a total function, never failing on
malformed JSON in these columns. -/
theorem c9_row_to_item_json (r : ItemSqlRow) :
    (row_to_item r).connection_names
      = r.connection_names.bind (fun s => parseJsonStringList s) ∧
    (row_to_item r).cable_color_pattern
      = r.cable_color_pattern.bind (fun s => parseJsonStringList s) ∧
    (r.connection_names = none → (row_to_item r).connection_names = none) ∧
    (r.cable_color_pattern = none → (row_to_item r).cable_color_pattern = none) ∧
    (∀ s, r.connection_names = some s → parseJsonStringList s = none →
      (row_to_item r).connection_names = none) ∧
    (∀ s, r.cable_color_pattern = some s → parseJsonStringList s = none →
      (row_to_item r).cable_color_pattern = none) ∧
    (∀ l : List String, parseJsonStringList (encodeJsonStringList l) = some l) := by
  refine ⟨rfl, rfl, ?_, ?_, ?_, ?_, parse_encode_roundtrip⟩
  · intro h; simp [row_to_item, h]
  · intro h; simp [row_to_item, h]
  · intro s hs hp; simp [row_to_item, hs, hp]
  · intro s hs hp; simp [row_to_item, hs, hp]

/-- C9 witness: a row whose `connection_names` column holds malformed JSON
decodes to None while its well-formed `cable_color_pattern` column decodes
to the ordered list, and the read produces an Item either way. -/
theorem c9_row_to_item_json_witness :
    (row_to_item
      { id := 1, name := "n", label_id := "0001", model_number := none,
        remarks := none, purchase_year := none, durability_years := none,
        is_depreciation_target := none, connection_names := some "not json",
        cable_color_pattern := some "[\"HDMI\",\"USB-C\"]", storage_location := none,
        container_id := none, storage_type := none, is_on_loan := some false,
        qr_code_type := none, is_disposed := some false, image_url := none,
        created_at := 0, updated_at := 0 }).connection_names = none ∧
    (row_to_item
      { id := 1, name := "n", label_id := "0001", model_number := none,
        remarks := none, purchase_year := none, durability_years := none,
        is_depreciation_target := none, connection_names := some "not json",
        cable_color_pattern := some "[\"HDMI\",\"USB-C\"]", storage_location := none,
        container_id := none, storage_type := none, is_on_loan := some false,
        qr_code_type := none, is_disposed := some false, image_url := none,
        created_at := 0, updated_at := 0 }).cable_color_pattern
      = some ["HDMI", "USB-C"] := by
  have h := c9_row_to_item_json
      { id := 1, name := "n", label_id := "0001", model_number := none,
        remarks := none, purchase_year := none, durability_years := none,
        is_depreciation_target := none, connection_names := some "not json",
        cable_color_pattern := some "[\"HDMI\",\"USB-C\"]", storage_location := none,
        container_id := none, storage_type := none, is_on_loan := some false,
        qr_code_type := none, is_disposed := some false, image_url := none,
        created_at := 0, updated_at := 0 }
  refine ⟨h.2.2.2.2.1 "not json" rfl (by decide), ?_⟩
  rw [h.2.1]
  decide

theorem sqliteBoolCol_eq (o : Option Bool) (b : Bool) :
    (o.map (fun x => if x then (1 : Int) else 0) == some (if b then (1 : Int) else 0))
      = (o == some b) := by
  rcases o with _ | x
  · rfl
  · cases x <;> cases b <;> decide

theorem sqliteItemRowPred_encode (f : ItemListFilters) (r : ItemRow) :
    sqliteItemRowPred f (encodeSqliteRow r) = pgItemRowPred f r := by
  rw [sqliteItemRowPred, pgItemRowPred]
  rcases f with ⟨fs, fl, fd, fc, ft⟩
  simp only [encodeSqliteRow]
  rcases fl with _ | b1 <;> rcases fd with _ | b2 <;>
    simp only [sqliteBoolCol_eq]

theorem filter_map_comm {α β : Type} (g : α → β) (p : β → Bool) (q : α → Bool)
    (h : ∀ a, p (g a) = q a) (l : List α) :
    (l.map g).filter p = (l.filter q).map g := by
  induction l with
  | nil => rfl
  | cons a t ih =>
      simp only [List.map_cons, List.filter_cons, h a]
      cases hq : q a <;> simp [ih]

theorem insertDescBy_map {α β : Type} (g : α → β) (ka : α → Int) (kb : β → Int)
    (h : ∀ a, kb (g a) = ka a) (r : α) (l : List α) :
    insertDescBy kb (g r) (l.map g) = (insertDescBy ka r l).map g := by
  induction l with
  | nil => rfl
  | cons x t ih =>
      simp only [List.map_cons, insertDescBy, h]
      by_cases hc : ka r ≤ ka x <;> simp [hc, ih]

theorem sortDescBy_map {α β : Type} (g : α → β) (ka : α → Int) (kb : β → Int)
    (h : ∀ a, kb (g a) = ka a) (l : List α) :
    sortDescBy kb (l.map g) = (sortDescBy ka l).map g := by
  induction l with
  | nil => rfl
  | cons x t ih =>
      simp only [sortDescBy, List.map_cons, List.foldr_cons]
      rw [show List.foldr (insertDescBy kb) [] (t.map g) = sortDescBy kb (t.map g) from rfl,
          ih, insertDescBy_map g ka kb h]
      rfl

/-- C2: for every table state and every input tuple with page ≥ 1 and
per_page > 0, the Postgres branch and the SQLite branch of `list_items`
return the same logical result: the same rows — hence the same ids — in
the same created_at-descending order, and the same total count (the SQLite
branch operating on the integer-encoded wire rows returns exactly the
encodings of the Postgres branch's rows). -/
theorem c2_list_items_dialect_equivalence (db : List ItemRow) (page per_page : Nat)
    (hpage : 1 ≤ page) (hpp : 1 ≤ per_page) (f : ItemListFilters) :
    (list_items_sqlite (db.map encodeSqliteRow) page per_page f).1
      = (list_items_postgres db page per_page f).1.map encodeSqliteRow ∧
    ((list_items_sqlite (db.map encodeSqliteRow) page per_page f).1.map (fun r => r.id))
      = ((list_items_postgres db page per_page f).1.map (fun r => r.id)) ∧
    (list_items_sqlite (db.map encodeSqliteRow) page per_page f).2
      = (list_items_postgres db page per_page f).2 := by
  have hkey : ∀ r : ItemRow, (encodeSqliteRow r).created_at = r.created_at := fun _ => rfl
  have hfilter : (db.map encodeSqliteRow).filter (sqliteItemRowPred f)
      = (db.filter (pgItemRowPred f)).map encodeSqliteRow :=
    filter_map_comm encodeSqliteRow _ _ (sqliteItemRowPred_encode f) db
  have hmain : (list_items_sqlite (db.map encodeSqliteRow) page per_page f).1
      = (list_items_postgres db page per_page f).1.map encodeSqliteRow ∧
      (list_items_sqlite (db.map encodeSqliteRow) page per_page f).2
        = (list_items_postgres db page per_page f).2 := by
    by_cases hnf : sqliteNoFilters f = true
    · have hpredTrue : ∀ r : ItemRow, pgItemRowPred f r = true := by
        intro r
        simp only [sqliteNoFilters, Bool.and_eq_true, Option.isNone_iff_eq_none] at hnf
        obtain ⟨⟨⟨⟨h1, h2⟩, h3⟩, h4⟩, h5⟩ := hnf
        simp [pgItemRowPred, h1, h2, h3, h4, h5]
      have hfdb : db.filter (pgItemRowPred f) = db :=
        List.filter_eq_self.mpr (fun a _ => hpredTrue a)
      rw [list_items_postgres, list_items_sqlite, if_pos hnf]
      simp only [hfdb]
      constructor
      · rw [sortDescBy_map encodeSqliteRow (fun r => r.created_at)
            (fun r => r.created_at) hkey db, ← List.map_drop, ← List.map_take]
      · simp
    · rw [list_items_postgres, list_items_sqlite, if_neg hnf]
      simp only [hfilter]
      constructor
      · rw [sortDescBy_map encodeSqliteRow (fun r => r.created_at)
            (fun r => r.created_at) hkey, ← List.map_drop, ← List.map_take]
      · simp
  refine ⟨hmain.1, ?_, hmain.2⟩
  rw [hmain.1, List.map_map]
  rfl

/-- C2 witness: a two-row table with a search and storage_type filter at
page 1, per_page 20. -/
theorem c2_list_items_dialect_equivalence_witness :
    (1 ≤ 1 ∧ 1 ≤ 20) ∧
    ((list_items_sqlite
        ([⟨1, "HDMI Cable", "0001", none, none, some false, some false, none,
            some "location", 5⟩,
          ⟨2, "Monitor", "0002", none, none, some true, some false, none,
            some "location", 9⟩].map encodeSqliteRow) 1 20
        ⟨some "cab", none, none, none, some "location"⟩).1
      = (list_items_postgres
          [⟨1, "HDMI Cable", "0001", none, none, some false, some false, none,
              some "location", 5⟩,
            ⟨2, "Monitor", "0002", none, none, some true, some false, none,
              some "location", 9⟩] 1 20
          ⟨some "cab", none, none, none, some "location"⟩).1.map encodeSqliteRow ∧
     ((list_items_sqlite
        ([⟨1, "HDMI Cable", "0001", none, none, some false, some false, none,
            some "location", 5⟩,
          ⟨2, "Monitor", "0002", none, none, some true, some false, none,
            some "location", 9⟩].map encodeSqliteRow) 1 20
        ⟨some "cab", none, none, none, some "location"⟩).1.map (fun r => r.id))
      = ((list_items_postgres
          [⟨1, "HDMI Cable", "0001", none, none, some false, some false, none,
              some "location", 5⟩,
            ⟨2, "Monitor", "0002", none, none, some true, some false, none,
              some "location", 9⟩] 1 20
          ⟨some "cab", none, none, none, some "location"⟩).1.map (fun r => r.id)) ∧
     (list_items_sqlite
        ([⟨1, "HDMI Cable", "0001", none, none, some false, some false, none,
            some "location", 5⟩,
          ⟨2, "Monitor", "0002", none, none, some true, some false, none,
            some "location", 9⟩].map encodeSqliteRow) 1 20
        ⟨some "cab", none, none, none, some "location"⟩).2
      = (list_items_postgres
          [⟨1, "HDMI Cable", "0001", none, none, some false, some false, none,
              some "location", 5⟩,
            ⟨2, "Monitor", "0002", none, none, some true, some false, none,
              some "location", 9⟩] 1 20
          ⟨some "cab", none, none, none, some "location"⟩).2) :=
  ⟨⟨by decide, by decide⟩,
    c2_list_items_dialect_equivalence
      [⟨1, "HDMI Cable", "0001", none, none, some false, some false, none,
          some "location", 5⟩,
        ⟨2, "Monitor", "0002", none, none, some true, some false, none,
          some "location", 9⟩] 1 20 (by decide) (by decide)
      ⟨some "cab", none, none, none, some "location"⟩⟩

theorem create_loan_ok_inv (st st' : LoanState) (item_id lid : Int)
    (h : create_loan st item_id = Except.ok (st', lid)) :
    ∃ it, st.items item_id = some it ∧ it.is_on_loan.getD false = false ∧
      it.is_disposed.getD false = false ∧ lid = st.next_loan_id ∧
      st' = { items := fun i => if i = item_id then
                (st.items i).map (fun j => { j with is_on_loan := some true })
              else st.items i
              loans := st.loans
                ++ [{ id := st.next_loan_id, item_id := item_id, return_date := none }]
              next_loan_id := st.next_loan_id + 1 } := by
  unfold create_loan at h
  rcases hit : st.items item_id with _ | it <;> simp only [hit] at h
  · cases h
  · by_cases h1 : it.is_on_loan.getD false = true
    · rw [if_pos h1] at h; cases h
    · rw [if_neg h1] at h
      by_cases h2 : it.is_disposed.getD false = true
      · rw [if_pos h2] at h; cases h
      · rw [if_neg h2] at h
        injection h with h'
        injection h' with ha hb
        exact ⟨it, rfl, by simpa using h1, by simpa using h2, hb.symm, ha.symm⟩

theorem return_loan_ok_inv (st st' : LoanState) (id : Int) (d : Option Int) (now : Int)
    (h : return_loan st id d now = Except.ok st') :
    ∃ l, st.loans.find? (fun j => j.id == id) = some l ∧ l.return_date = none ∧
      st' = { items := fun i => if i = l.item_id then
                (st.items i).map (fun j => { j with is_on_loan := some false })
              else st.items i
              loans := st.loans.map (fun j => if j.id == id then
                  { j with return_date := some (d.getD now) } else j)
              next_loan_id := st.next_loan_id } := by
  unfold return_loan at h
  rcases hf : st.loans.find? (fun l => l.id == id) with _ | l <;> simp only [hf] at h
  · cases h
  · rcases hrd : l.return_date with _ | x <;> rw [hrd] at h
    · simp only [Option.isSome_none, Bool.false_eq_true, if_false] at h
      injection h with h'
      exact ⟨l, hf, hrd, h'.symm⟩
    · simp only [Option.isSome_some, if_true] at h
      cases h

theorem activeLoanCount_append_active (loans : List LoanRow) (nl : LoanRow)
    (hact : nl.return_date = none) (i : Int) :
    activeLoanCount (loans ++ [nl]) i
      = activeLoanCount loans i + (if nl.item_id = i then 1 else 0) := by
  simp only [activeLoanCount, List.filter_append, List.length_append]
  congr 1
  by_cases hi : nl.item_id = i
  · simp [hi, hact]
  · simp [List.filter_cons, hact, beq_eq_false_iff_ne.mpr hi, hi]

theorem find?_return_map (id : Int) (rd : Int) (loans : List LoanRow) :
    (loans.map (fun j => if j.id == id then { j with return_date := some rd } else j)).find?
        (fun j => j.id == id)
      = (loans.find? (fun j => j.id == id)).map
          (fun j => if j.id == id then { j with return_date := some rd } else j) := by
  induction loans with
  | nil => rfl
  | cons r t ih =>
      rw [List.map_cons]
      by_cases hr : r.id = id
      · have hb : (r.id == id) = true := beq_iff_eq.mpr hr
        have hmapr : (if (r.id == id) = true then
            ({ r with return_date := some rd } : LoanRow) else r)
            = { r with return_date := some rd } := if_pos hb
        have hpu : (({ r with return_date := some rd } : LoanRow).id == id) = true := by
          simpa using hb
        rw [hmapr, List.find?_cons_of_pos (p := fun (j : LoanRow) => j.id == id) _ hpu,
            List.find?_cons_of_pos (p := fun (j : LoanRow) => j.id == id) _ hb,
            Option.map_some', hmapr]
      · have hb : (r.id == id) = false := beq_eq_false_iff_ne.mpr hr
        have hmapr : (if (r.id == id) = true then
            ({ r with return_date := some rd } : LoanRow) else r) = r := by
          simp [hb]
        rw [hmapr, List.find?_cons_of_neg (p := fun (j : LoanRow) => j.id == id) _ (by simp [hb]),
            List.find?_cons_of_neg (p := fun (j : LoanRow) => j.id == id) _ (by simp [hb]), ih]

theorem activeLoanCount_return_map (id : Int) (rd : Int) :
    ∀ (loans : List LoanRow), loans.Pairwise (fun a b => a.id ≠ b.id) →
      ∀ l, loans.find? (fun j => j.id == id) = some l → l.return_date = none →
      ∀ i,
        activeLoanCount
            (loans.map (fun j => if j.id == id then { j with return_date := some rd } else j)) i
          + (if l.item_id = i then 1 else 0)
        = activeLoanCount loans i := by
  intro loans
  induction loans with
  | nil => intro _ l hl; cases hl
  | cons r t ih =>
      intro hp l hl hrd i
      rcases List.pairwise_cons.mp hp with ⟨hr_t, hp_t⟩
      rw [List.map_cons]
      by_cases hr : r.id = id
      · have hb : (r.id == id) = true := beq_iff_eq.mpr hr
        rw [List.find?_cons_of_pos (p := fun (j : LoanRow) => j.id == id) _ (by simpa using hb)] at hl
        injection hl with hl'
        subst hl'
        have hmapr : (if (r.id == id) = true then
            ({ r with return_date := some rd } : LoanRow) else r)
            = { r with return_date := some rd } := if_pos hb
        have htmap : t.map (fun j => if (j.id == id) = true then
            { j with return_date := some rd } else j) = t := by
          have hfix : ∀ a ∈ t, (if (a.id == id) = true then
              ({ a with return_date := some rd } : LoanRow) else a) = a := by
            intro a ha
            have hne : (a.id == id) = false :=
              beq_eq_false_iff_ne.mpr (fun hh => (hr_t a ha) (by rw [hh, hr]))
            simp [hne]
          calc t.map (fun j => if (j.id == id) = true then
                { j with return_date := some rd } else j)
              = t.map (fun a => a) := List.map_congr_left hfix
          _ = t := by simp
        rw [hmapr, htmap]
        simp only [activeLoanCount, List.filter_cons, hrd]
        by_cases hi : r.item_id = i
        · simp [hi]
        · simp [hi, beq_eq_false_iff_ne.mpr hi]
      · have hb : (r.id == id) = false := beq_eq_false_iff_ne.mpr hr
        rw [List.find?_cons_of_neg (p := fun (j : LoanRow) => j.id == id) _ (by simp [hb])] at hl
        have hmapr : (if (r.id == id) = true then
            ({ r with return_date := some rd } : LoanRow) else r) = r := by
          simp [hb]
        rw [hmapr]
        have hrec := ih hp_t l hl hrd i
        simp only [activeLoanCount, List.filter_cons] at hrec ⊢
        cases hqr : (r.item_id == i && r.return_date.isNone) <;>
          simp only [hqr, Bool.false_eq_true, if_false, if_true, List.length_cons] <;>
          omega

theorem loanInv_init (st : LoanState) (hloans : st.loans = [])
    (hflags : ∀ i it, st.items i = some it → it.is_on_loan.getD false = false) :
    LoanInv st := by
  constructor
  · intro i it hit
    rw [hloans]
    refine ⟨by simp [activeLoanCount], ?_, ?_⟩
    · intro hflag; rw [hflags i it hit] at hflag; cases hflag
    · intro hcnt; simp [activeLoanCount] at hcnt
  · intro l hl; rw [hloans] at hl; cases hl
  · rw [hloans]; exact List.Pairwise.nil

theorem loanInv_createOk (st st' : LoanState) (item_id lid : Int)
    (h : create_loan st item_id = Except.ok (st', lid)) (inv : LoanInv st) : LoanInv st' := by
  obtain ⟨it, hit, hflag, hdisp, hlid, hst⟩ := create_loan_ok_inv st st' item_id lid h
  subst hst
  constructor
  · intro i jt hjt
    simp only at hjt
    by_cases hi : i = item_id
    · subst hi
      rw [if_pos rfl, hit, Option.map_some'] at hjt
      injection hjt with hjt'
      subst hjt'
      have h0 : activeLoanCount st.loans i = 0 := by
        obtain ⟨hle, hiff⟩ := inv.counts i it hit
        by_contra hne
        have h1 : activeLoanCount st.loans i = 1 := by omega
        have htrue := hiff.mpr h1
        rw [hflag] at htrue; cases htrue
      rw [activeLoanCount_append_active st.loans _ rfl i, h0]
      refine ⟨by simp, ?_, ?_⟩
      · intro _; simp
      · intro _; rfl
    · rw [if_neg hi] at hjt
      obtain ⟨hle, hiff⟩ := inv.counts i jt hjt
      rw [activeLoanCount_append_active st.loans _ rfl i,
          if_neg (fun hh => hi (by simpa using hh.symm))]
      exact ⟨by omega, by simpa using hiff⟩
  · intro l hl
    simp only at hl
    show l.id < st.next_loan_id + 1
    rcases List.mem_append.mp hl with hl | hl
    · have := inv.ids_lt l hl; omega
    · rw [List.mem_singleton] at hl
      subst hl
      show st.next_loan_id < st.next_loan_id + 1
      omega
  · simp only
    rw [List.pairwise_append]
    refine ⟨inv.ids_nodup, List.pairwise_singleton _ _, ?_⟩
    intro a ha b hb
    rw [List.mem_singleton] at hb
    subst hb
    have := inv.ids_lt a ha
    show a.id ≠ st.next_loan_id
    omega

theorem loanInv_returnOk (st st' : LoanState) (id : Int) (d : Option Int) (now : Int)
    (h : return_loan st id d now = Except.ok st') (inv : LoanInv st) : LoanInv st' := by
  obtain ⟨l, hfind, hrd, hst⟩ := return_loan_ok_inv st st' id d now h
  subst hst
  have hcnt := activeLoanCount_return_map id (d.getD now) st.loans inv.ids_nodup l hfind hrd
  have hid : ∀ j : LoanRow, (if (j.id == id) = true then
      ({ j with return_date := some (d.getD now) } : LoanRow) else j).id = j.id := by
    intro j
    by_cases hc : (j.id == id) = true <;> simp [hc]
  constructor
  · intro i jt hjt
    dsimp only at hjt ⊢
    by_cases hi : i = l.item_id
    · subst hi
      rw [if_pos rfl] at hjt
      rcases hsi : st.items l.item_id with _ | it0 <;> rw [hsi] at hjt
      · simp at hjt
      · rw [Option.map_some'] at hjt
        injection hjt with hjt'
        subst hjt'
        have h1 := hcnt l.item_id
        rw [if_pos rfl] at h1
        obtain ⟨hle, hiff⟩ := inv.counts l.item_id it0 hsi
        refine ⟨by omega, ?_, ?_⟩
        · intro hflag; exact absurd hflag (by simp)
        · intro hc1; exact absurd hc1 (by omega)
    · rw [if_neg hi] at hjt
      have h1 := hcnt i
      rw [if_neg (fun hh => hi hh.symm)] at h1
      obtain ⟨hle, hiff⟩ := inv.counts i jt hjt
      refine ⟨by omega, ?_⟩
      rw [show activeLoanCount (st.loans.map (fun j => if (j.id == id) = true then
          { j with return_date := some (d.getD now) } else j)) i
          = activeLoanCount st.loans i by omega]
      exact hiff
  · intro lr hlr
    simp only at hlr
    obtain ⟨j, hj, rfl⟩ := List.mem_map.mp hlr
    have := inv.ids_lt j hj
    rw [hid j]
    exact this
  · simp only
    rw [List.pairwise_map]
    exact inv.ids_nodup.imp (fun hab => by rw [hid, hid]; exact hab)

theorem reachable_loanInv (st : LoanState) (h : Reachable st) : LoanInv st := by
  induction h with
  | init st hloans hflags => exact loanInv_init st hloans hflags
  | createOk st st' item_id lid _ hok ih => exact loanInv_createOk st st' item_id lid hok ih
  | returnOk st st' id d now _ hok ih => exact loanInv_returnOk st st' id d now hok ih

/-- C6: in every state reachable through create_loan and return_loan
executed sequentially, at most one loan row per item has a NULL
return_date, and exactly one active loan exists precisely when the item's
is_on_loan flag (NULL read as false) is true; create_loan fails with
NotFound when the item does not exist and with the conflict-class
BadRequest errors of the error taxonomy when the item is already on loan
or disposed, and on success sets is_on_loan to true; return_loan fails
when the loan does not exist or already has a return_date, and on success
stamps return_date (request-supplied or now) and sets the item's
is_on_loan to false, after which returning the same loan again always
fails — a one-way transition. -/
theorem c6_loan_lifecycle (st : LoanState) (h : Reachable st) :
    (∀ i it, st.items i = some it →
      activeLoanCount st.loans i ≤ 1 ∧
        (it.is_on_loan.getD false = true ↔ activeLoanCount st.loans i = 1)) ∧
    (∀ item_id, st.items item_id = none →
      create_loan st item_id
        = Except.error (AppError.NotFound
            ("Item with id " ++ toString item_id ++ " not found"))) ∧
    (∀ item_id it, st.items item_id = some it → it.is_on_loan.getD false = true →
      create_loan st item_id
        = Except.error (AppError.BadRequest "Item is already on loan")) ∧
    (∀ item_id it, st.items item_id = some it → it.is_on_loan.getD false = false →
      it.is_disposed.getD false = true →
      create_loan st item_id
        = Except.error (AppError.BadRequest "Item is disposed and cannot be loaned")) ∧
    (∀ item_id st' lid, create_loan st item_id = Except.ok (st', lid) →
      ∀ it', st'.items item_id = some it' → it'.is_on_loan = some true) ∧
    (∀ id d now, st.loans.find? (fun l => l.id == id) = none →
      return_loan st id d now
        = Except.error (AppError.NotFound
            ("Loan with id " ++ toString id ++ " not found"))) ∧
    (∀ id d now l, st.loans.find? (fun j => j.id == id) = some l →
      l.return_date.isSome →
      return_loan st id d now
        = Except.error (AppError.BadRequest "Loan has already been returned")) ∧
    (∀ id d now st' l, st.loans.find? (fun j => j.id == id) = some l →
      return_loan st id d now = Except.ok st' →
      st'.loans.find? (fun j => j.id == id)
          = some { l with return_date := some (d.getD now) } ∧
      (∀ it', st'.items l.item_id = some it' → it'.is_on_loan = some false) ∧
      (∀ d' now', return_loan st' id d' now'
          = Except.error (AppError.BadRequest "Loan has already been returned"))) := by
  refine ⟨(reachable_loanInv st h).counts, ?_, ?_, ?_, ?_, ?_, ?_, ?_⟩
  · intro item_id hnone
    simp only [create_loan, hnone]
  · intro item_id it hit hfl
    simp only [create_loan, hit]
    rw [if_pos hfl]
  · intro item_id it hit hfl0 hdisp
    simp only [create_loan, hit]
    rw [if_neg (by simp [hfl0]), if_pos hdisp]
  · intro item_id st' lid hok it' hit'
    obtain ⟨it, hit, _, _, _, hst⟩ := create_loan_ok_inv st st' item_id lid hok
    subst hst
    dsimp only at hit'
    rw [if_pos rfl, hit, Option.map_some'] at hit'
    injection hit' with hit''
    subst hit''
    rfl
  · intro id d now hnone
    simp only [return_loan, hnone]
  · intro id d now l hf hsome
    simp only [return_loan, hf]
    rw [if_pos hsome]
  · intro id d now st' l hf hok
    obtain ⟨l₀, hf₀, hrd₀, hst⟩ := return_loan_ok_inv st st' id d now hok
    rw [hf] at hf₀
    injection hf₀ with hl₀
    subst hl₀
    subst hst
    have hlid : (l.id == id) = true := by
      have hx := List.find?_some hf
      simpa using hx
    have hfind' : (st.loans.map (fun j => if (j.id == id) = true then
          { j with return_date := some (d.getD now) } else j)).find?
          (fun j => j.id == id)
        = some { l with return_date := some (d.getD now) } := by
      rw [find?_return_map, hf, Option.map_some', if_pos hlid]
    refine ⟨hfind', ?_, ?_⟩
    · intro it' hit'
      dsimp only at hit'
      rw [if_pos rfl] at hit'
      rcases hsi : st.items l.item_id with _ | it0 <;> rw [hsi] at hit'
      · simp at hit'
      · rw [Option.map_some'] at hit'
        injection hit' with hit''
        subst hit''
        rfl
    · intro d2 n2
      simp only [return_loan, hfind']
      rw [if_pos (by simp)]

/-- C6 witness: from a fresh one-item state, creating a loan for a missing
item id fails with NotFound. -/
theorem c6_loan_lifecycle_witness :
    create_loan
        ⟨fun i => if i = 1 then some ⟨some false, some false⟩ else none, [], 1⟩ 2
      = Except.error (AppError.NotFound
          ("Item with id " ++ toString (2 : Int) ++ " not found")) := by
  have hreach : Reachable
      ⟨fun i => if i = 1 then some ⟨some false, some false⟩ else none, [], 1⟩ :=
    Reachable.init _ rfl (by
      intro i it hit
      dsimp only at hit
      by_cases hi : i = 1
      · rw [if_pos hi] at hit
        injection hit with hit'
        subst hit'
        rfl
      · rw [if_neg hi] at hit
        cases hit)
  exact (c6_loan_lifecycle _ hreach).2.1 2 (by simp)

/-- C7 counterexample: the claim states the row query's offset is
`(page - 1) * per_page` for every page ≥ 1, per_page > 0, but the code
computes it on `u32`, so at page = 2^31 + 1, per_page = 2 (both
representable u32 inputs) the computed offset wraps to 0 instead of the
mathematical product 2^32. -/
theorem c7_offset_overflow_counterexample :
    listItemsOffset 2147483649 2 = 0 ∧
    (2147483649 - 1) * 2 = 4294967296 ∧
    listItemsOffset 2147483649 2 ≠ (2147483649 - 1) * 2 := by
  refine ⟨by decide, by decide, by decide⟩

/-- C7 (amended): for every list query with page ≥ 1 and per_page > 0, the
rows are limited by LIMIT per_page OFFSET ((page − 1) · per_page mod 2^32)
— the offset is computed in 32-bit unsigned arithmetic and equals
(page − 1) · per_page whenever that product is below 2^32 — and in both
dialect branches the total is computed by a COUNT(*) query whose WHERE
predicate is character-for-character the same `where_clause` string used by
the row query, with bind chains carrying the same filter parameters (the
row query additionally binding limit and offset last). -/
theorem c7_pagination_and_count (f : ItemListFilters) (page per_page : Nat)
    (hpage : 1 ≤ page) (hpp : 1 ≤ per_page) :
    pgItemQueryStr f
      = itemSelectColumns ++ " " ++ whereClause (pgItemWhereConditions f).1
          ++ " ORDER BY created_at DESC LIMIT $" ++ toString (pgItemWhereConditions f).2
          ++ " OFFSET $" ++ toString ((pgItemWhereConditions f).2 + 1) ∧
    pgItemCountQueryStr f
      = "SELECT COUNT(*) as count FROM items " ++ whereClause (pgItemWhereConditions f).1 ∧
    pgItemCountQueryBinds f = pgItemFilterParams f ∧
    (∀ li off : Int,
      pgItemRowQueryBinds f li off = pgItemFilterParams f ++ [SqlValue.i li, SqlValue.i off]) ∧
    (sqliteNoFilters f = false →
      sqliteItemQueryStr f
        = itemSelectColumns ++ " " ++ whereClause (sqliteItemWhereConditions f)
            ++ " ORDER BY created_at DESC LIMIT ? OFFSET ?" ∧
      sqliteItemCountQueryStr f
        = "SELECT COUNT(*) as count FROM items "
            ++ whereClause (sqliteItemWhereConditions f)) ∧
    (sqliteNoFilters f = true →
      sqliteItemWhereConditions f = [] ∧ sqliteItemFilterParams f = []) ∧
    sqliteItemCountQueryBinds f = sqliteItemFilterParams f ∧
    (∀ li off : Int,
      sqliteItemRowQueryBinds f li off
        = sqliteItemFilterParams f ++ [SqlValue.i li, SqlValue.i off]) ∧
    listItemsLimit per_page = per_page ∧
    listItemsOffset page per_page = ((page - 1) * per_page) % 2 ^ 32 ∧
    ((page - 1) * per_page < 2 ^ 32 →
      listItemsOffset page per_page = (page - 1) * per_page) := by
  refine ⟨rfl, rfl, rfl, fun li off => ?_, ?_, ?_, rfl, fun li off => ?_, rfl, rfl, ?_⟩
  · simp [pgItemRowQueryBinds, pgItemFilterParams]
  · intro h
    exact ⟨by rw [sqliteItemQueryStr, if_neg (by simp [h])],
           by rw [sqliteItemCountQueryStr, if_neg (by simp [h])]⟩
  · intro h
    simp only [sqliteNoFilters, Bool.and_eq_true, Option.isNone_iff_eq_none] at h
    obtain ⟨⟨⟨⟨h1, h2⟩, h3⟩, h4⟩, h5⟩ := h
    constructor
    · simp [sqliteItemWhereConditions, h1, h2, h3, h4, h5]
    · simp [sqliteItemFilterParams, h1, h2, h3, h4, h5]
  · simp [sqliteItemRowQueryBinds, sqliteItemFilterParams]
  · intro h
    exact Nat.mod_eq_of_lt h

/-- C7 witness: a concrete filtered query at page 3, per_page 20. -/
theorem c7_pagination_and_count_witness :
    (1 ≤ 3 ∧ 1 ≤ 20) ∧
    (pgItemCountQueryBinds ⟨some "cable", some true, none, none, none⟩
        = pgItemFilterParams ⟨some "cable", some true, none, none, none⟩ ∧
     listItemsOffset 3 20 = (3 - 1) * 20) := by
  obtain ⟨-, -, hbinds, -, -, -, -, -, -, -, hoff⟩ :=
    c7_pagination_and_count ⟨some "cable", some true, none, none, none⟩ 3 20
      (by decide) (by decide)
  exact ⟨⟨by decide, by decide⟩, hbinds, hoff (by decide)⟩

/-- C10 witness: one item row holding "00AB" (the rendering of 371); index
371 of the returned list is that code, marked used with the item's name. -/
theorem c10_get_all_labels_witness :
    (371 < 1679616) ∧
    ((get_all_labels [⟨"00AB", "cable tester"⟩]).length = 1679616 ∧
     (get_all_labels [⟨"00AB", "cable tester"⟩])[371]? = some
       { id := labelRender 371
         used := (usedLabelsMap [⟨"00AB", "cable tester"⟩] (labelRender 371)).isSome
         item_name := usedLabelsMap [⟨"00AB", "cable tester"⟩] (labelRender 371) } ∧
     ((usedLabelsMap [⟨"00AB", "cable tester"⟩] (labelRender 371)).isSome = true
       ↔ ∃ r ∈ [(⟨"00AB", "cable tester"⟩ : ItemLabelRow)], r.label_id = labelRender 371) ∧
     ((get_all_labels [⟨"00AB", "cable tester"⟩]).map (fun li => li.id)).Pairwise (· < ·)) :=
  ⟨by decide, c10_get_all_labels [⟨"00AB", "cable tester"⟩] 371 (by decide)⟩

end HyperDashi
